import Mathlib

/-!
Verification development for the gophertool/tool repository.

The Go sources are shallowly embedded: pure functions become Lean functions,
the key/value engines behind the cache backends become explicit state passing
over association-list stores, and fallible Go code returns `Except`.
Machine integers are modelled as `Int`/`Nat`: every index manipulated here is
produced by a bounded number of list operations and stays far inside the
int64 range, so wraparound is immaterial.
-/

namespace GophertoolSpec

/-! ### Decimal formatting and parsing (strconv.FormatInt / strconv.ParseInt, base 10) -/

/-- The decimal digit character for `d < 10` (code point `48 + d`). -/
def decChar (d : Nat) : Char := Char.ofNat (48 + d)

/-- Numeric value of a decimal digit character, `none` for a non-digit.
Models the per-character acceptance of Go's `strconv.ParseInt` in base 10. -/
def decVal (c : Char) : Option Nat :=
  if c.isDigit then some (c.toNat - 48) else none

/-- Most-significant-first decimal digit emission for a natural number,
fuel-bounded; `fuel ≥ n` always suffices (used with `fuel = n + 1`).
Models the digit loop of Go's `strconv.FormatInt` in base 10. -/
def natDecDigits : Nat → Nat → List Char → List Char
  | 0, _, acc => acc
  | fuel + 1, n, acc =>
    if n < 10 then decChar n :: acc
    else natDecDigits fuel (n / 10) (decChar (n % 10) :: acc)

/-- Decimal rendering of a natural number, e.g. `goFormatNat 17 = "17"`. -/
def goFormatNat (n : Nat) : String := String.mk (natDecDigits (n + 1) n [])

/-- Models Go `strconv.FormatInt(i, 10)` on values inside the int64 range. -/
def goFormatInt (i : Int) : String :=
  if i < 0 then "-" ++ goFormatNat i.natAbs else goFormatNat i.natAbs

/-- Accumulating decimal reader: consumes the whole list, failing on any
non-digit character. -/
def decAccum (acc : Nat) : List Char → Option Nat
  | [] => some acc
  | c :: cs =>
    match decVal c with
    | some d => decAccum (acc * 10 + d) cs
    | none => none

/-- Character-list form of `goParseInt`: an optional sign followed by a
nonempty run of decimal digits. -/
def goParseChars : List Char → Option Int
  | [] => none
  | c :: cs =>
    if c = '+' then
      if cs = [] then none else (decAccum 0 cs).map Int.ofNat
    else if c = '-' then
      if cs = [] then none else (decAccum 0 cs).map (fun n => -(Int.ofNat n))
    else
      (decAccum 0 (c :: cs)).map Int.ofNat

/-- Models Go `strconv.ParseInt(s, 10, 64)`: an optional sign followed by a
nonempty run of decimal digits.  The int64 range check is not modelled; no
value parsed in this development approaches the int64 bound. -/
def goParseInt (s : String) : Option Int := goParseChars s.data

theorem decVal_decChar {d : Nat} (h : d < 10) : decVal (decChar d) = some d := by
  interval_cases d <;> rfl

theorem decChar_ne_plus {d : Nat} (h : d < 10) : decChar d ≠ '+' := by
  interval_cases d <;> decide

theorem decChar_ne_minus {d : Nat} (h : d < 10) : decChar d ≠ '-' := by
  interval_cases d <;> decide

/-- `10 ^ (number of decimal digits of n)`, with the same fuel discipline as
`natDecDigits`. -/
def decWeight : Nat → Nat → Nat
  | 0, _ => 1
  | fuel + 1, n => if n < 10 then 10 else 10 * decWeight fuel (n / 10)

theorem decAccum_natDecDigits (fuel : Nat) :
    ∀ n a : Nat, ∀ rest : List Char, n ≤ fuel →
      decAccum a (natDecDigits fuel n rest) =
        decAccum (a * decWeight fuel n + n) rest := by
  induction fuel with
  | zero =>
    intro n a rest hn
    have hz : n = 0 := by omega
    subst hz
    simp [natDecDigits, decWeight]
  | succ fuel ih =>
    intro n a rest hn
    by_cases h10 : n < 10
    · simp only [natDecDigits, decWeight, if_pos h10, decAccum, decVal_decChar h10]

    · have hdiv : n / 10 ≤ fuel := by omega
      have hmod : n % 10 < 10 := Nat.mod_lt _ (by norm_num)
      simp only [natDecDigits, decWeight, if_neg h10]
      rw [ih (n / 10) a (decChar (n % 10) :: rest) hdiv]
      simp only [decAccum, decVal_decChar hmod]
      rw [Nat.mul_comm 10 (decWeight fuel (n / 10)), ← Nat.mul_assoc]
      congr 1
      omega

theorem decAccum_digits_of_nat (n : Nat) :
    decAccum 0 (natDecDigits (n + 1) n []) = some n := by
  rw [decAccum_natDecDigits (n + 1) n 0 [] (Nat.le_succ n)]
  simp [decAccum]

theorem natDecDigits_head (fuel : Nat) :
    ∀ n : Nat, ∀ rest : List Char, n ≤ fuel → 0 < fuel →
      ∃ d tail, d < 10 ∧ natDecDigits fuel n rest = decChar d :: tail := by
  induction fuel with
  | zero => intro n rest _ h; omega
  | succ fuel ih =>
    intro n rest hn _
    by_cases h10 : n < 10
    · exact ⟨n, rest, h10, by simp [natDecDigits, h10]⟩
    · have hdiv : n / 10 ≤ fuel := by omega
      have hpos : 0 < fuel := by omega
      obtain ⟨d, tail, hd, heq⟩ := ih (n / 10) (decChar (n % 10) :: rest) hdiv hpos
      exact ⟨d, tail, hd, by simp [natDecDigits, h10, heq]⟩

theorem goParseInt_goFormatNat (n : Nat) :
    goParseInt (goFormatNat n) = some (Int.ofNat n) := by
  obtain ⟨d, tail, hd, heq⟩ :=
    natDecDigits_head (n + 1) n [] (Nat.le_succ n) (Nat.succ_pos n)
  have hdata : (goFormatNat n).data = natDecDigits (n + 1) n [] := rfl
  rw [goParseInt, hdata, heq]
  simp only [goParseChars, if_neg (decChar_ne_plus hd), if_neg (decChar_ne_minus hd)]
  rw [← heq, decAccum_digits_of_nat n]
  rfl

theorem goParseInt_goFormatInt (i : Int) : goParseInt (goFormatInt i) = some i := by
  by_cases hneg : i < 0
  · rw [goFormatInt, if_pos hneg]
    obtain ⟨d, tail, hd, heq⟩ :=
      natDecDigits_head (i.natAbs + 1) i.natAbs [] (Nat.le_succ _) (Nat.succ_pos _)
    have hdata : ("-" ++ goFormatNat i.natAbs).data =
        '-' :: natDecDigits (i.natAbs + 1) i.natAbs [] := by
      have : ("-" ++ goFormatNat i.natAbs).data = "-".data ++ (goFormatNat i.natAbs).data :=
        String.data_append _ _
      rw [this]
      rfl
    have hne : natDecDigits (i.natAbs + 1) i.natAbs [] ≠ [] := by
      rw [heq]; simp
    rw [goParseInt, hdata]
    simp only [goParseChars, if_neg (show ¬ (('-' : Char) = '+') by decide),
      if_pos rfl, if_neg hne]
    rw [decAccum_digits_of_nat]
    simp only [Option.map_some']
    have habs : (Int.ofNat i.natAbs) = -i := Int.ofNat_natAbs_of_nonpos (by omega)
    rw [habs, neg_neg]
    simp
  · rw [goFormatInt, if_neg hneg]
    rw [goParseInt_goFormatNat]
    have : (Int.ofNat i.natAbs) = i := Int.natAbs_of_nonneg (by omega)
    rw [this]

theorem goFormatInt_inj {i j : Int} (h : goFormatInt i = goFormatInt j) : i = j := by
  have hi := goParseInt_goFormatInt i
  have hj := goParseInt_goFormatInt j
  rw [h, hj] at hi
  exact (Option.some_inj.mp hi).symm

theorem goParseInt_head : goParseInt "head" = none := by decide

theorem goParseInt_tailstr : goParseInt "tail" = none := by decide

theorem goFormatInt_ne_head (i : Int) : goFormatInt i ≠ "head" := by
  intro h
  have := goParseInt_goFormatInt i
  rw [h, goParseInt_head] at this
  exact Option.noConfusion this

theorem goFormatInt_ne_tailstr (i : Int) : goFormatInt i ≠ "tail" := by
  intro h
  have := goParseInt_goFormatInt i
  rw [h, goParseInt_tailstr] at this
  exact Option.noConfusion this

/-! ### Association-list maps

Go maps and the key/value engines behind the local cache backends are
modelled as association lists with unique keys: `alistSet` updates in place
or appends, `alistDel` removes, `alistGet` looks up. -/

/-- Lookup in an association list. -/
def alistGet {α : Type} : List (String × α) → String → Option α
  | [], _ => none
  | (k', v) :: rest, k => if k' = k then some v else alistGet rest k

/-- Update-or-append, mirroring Go's `m[k] = v`. -/
def alistSet {α : Type} : List (String × α) → String → α → List (String × α)
  | [], k, v => [(k, v)]
  | (k', v') :: rest, k, v =>
    if k' = k then (k, v) :: rest else (k', v') :: alistSet rest k v

/-- Removal, mirroring Go's `delete(m, k)` and the engines' delete. -/
def alistDel {α : Type} (s : List (String × α)) (k : String) : List (String × α) :=
  s.filter (fun e => e.1 ≠ k)

theorem alistGet_set {α : Type} (s : List (String × α)) (k k' : String) (v : α) :
    alistGet (alistSet s k v) k' = if k' = k then some v else alistGet s k' := by
  induction s with
  | nil =>
    by_cases h : k' = k
    · subst h; simp [alistSet, alistGet]
    · have h2 : ¬ (k = k') := fun hh => h hh.symm
      simp [alistSet, alistGet, h, h2]
  | cons e rest ih =>
    obtain ⟨k₀, v₀⟩ := e
    by_cases h0 : k₀ = k
    · subst h0
      by_cases h : k₀ = k'
      · subst h; simp [alistSet, alistGet]
      · have h2 : ¬ (k' = k₀) := fun hh => h hh.symm
        simp [alistSet, alistGet, h, h2]
    · by_cases h : k₀ = k'
      · subst h
        have h2 : ¬ (k₀ = k) := h0
        have h3 : ¬ (k₀ = k) := h0
        simp [alistSet, h0, alistGet, h2, h3]
      · have h2 : ¬ (k' = k₀) := fun hh => h hh.symm
        simp [alistSet, h0, alistGet, h, h2, ih]

theorem alistGet_set_eq {α : Type} (s : List (String × α)) (k : String) (v : α) :
    alistGet (alistSet s k v) k = some v := by
  rw [alistGet_set]; simp

theorem alistGet_set_ne {α : Type} (s : List (String × α)) {k k' : String} (v : α)
    (h : k' ≠ k) : alistGet (alistSet s k v) k' = alistGet s k' := by
  rw [alistGet_set]; simp [h]

theorem alistGet_del {α : Type} (s : List (String × α)) (k k' : String) :
    alistGet (alistDel s k) k' = if k' = k then none else alistGet s k' := by
  induction s with
  | nil => by_cases h : k' = k <;> simp [alistDel, alistGet, h]
  | cons e rest ih =>
    obtain ⟨k₀, v₀⟩ := e
    by_cases h0 : k₀ = k
    · subst h0
      by_cases h : k₀ = k'
      · subst h; simp only [alistDel, List.filter_cons] at ih ⊢
        simpa [alistGet] using ih
      · have h2 : ¬ (k' = k₀) := fun hh => h hh.symm
        simp only [alistDel, List.filter_cons] at ih ⊢
        simp only [decide_not] at ih ⊢
        simpa [alistGet, h, h2] using ih
    · by_cases h : k₀ = k'
      · subst h
        have hne : ¬ (k₀ = k) := h0
        simp only [alistDel, List.filter_cons, decide_not] at ih ⊢
        simp [hne, alistGet]
      · have h2 : ¬ (k' = k₀) := fun hh => h hh.symm
        simp only [alistDel, List.filter_cons, decide_not] at ih ⊢
        simpa [alistGet, h0, h, h2] using ih

theorem alistGet_del_eq {α : Type} (s : List (String × α)) (k : String) :
    alistGet (alistDel s k) k = none := by
  rw [alistGet_del]; simp

theorem alistGet_del_ne {α : Type} (s : List (String × α)) {k k' : String}
    (h : k' ≠ k) : alistGet (alistDel s k) k' = alistGet s k' := by
  rw [alistGet_del]; simp [h]

/-! ### String key disjointness facts -/

theorem string_append_left_cancel {a b c : String} (h : a ++ b = a ++ c) : b = c := by
  have hd : (a ++ b).data = (a ++ c).data := by rw [h]
  rw [String.data_append, String.data_append] at hd
  have := List.append_cancel_left hd
  cases b; cases c; exact congrArg String.mk this

theorem key_suffix_ne (k : String) {a b : String} (h : a ≠ b) : k ++ a ≠ k ++ b :=
  fun hh => h (string_append_left_cancel hh)

theorem string_append_assoc (a b c : String) : a ++ b ++ c = a ++ (b ++ c) := by
  apply congrArg String.mk
  show (a ++ b ++ c).data = (a ++ (b ++ c)).data
  simp [String.data_append, List.append_assoc]

/-! ### The shared error vocabulary

Each Go sentinel error is one constructor; `wrap` models `fmt.Errorf` with
`%w` and `errMsg` models a plain error value. -/

inductive GoError : Type
  /-- `_interface.ErrKeyNotFound` — the shared NotFound kind. -/
  | keyNotFound
  /-- `_interface.ErrUnsupportedDriver`. -/
  | unsupportedDriver
  /-- `badger.ErrKeyNotFound` — BadgerDB's native missing-key error. -/
  | badgerKeyNotFound
  /-- `buntdb.ErrNotFound` — BuntDB's native missing-key error. -/
  | buntNotFound
  /-- `redis.Nil` — the redis client's missing-key reply. -/
  | redisNil
  /-- `context.Canceled`, i.e. `ctx.Err()` of a cancelled context. -/
  | canceled
  /-- A plain formatted error (`fmt.Errorf` without `%w`, strconv errors…). -/
  | errMsg (s : String)
  /-- `fmt.Errorf("<msg>: %w", inner)`. -/
  | wrap (msg : String) (inner : GoError)
deriving DecidableEq

/-- `%v` rendering of an error, used where the Go code formats an error into
a message string. -/
def goErrorString : GoError → String
  | GoError.keyNotFound => "key not found"
  | GoError.unsupportedDriver => "unsupported cache driver"
  | GoError.badgerKeyNotFound => "Key not found"
  | GoError.buntNotFound => "not found"
  | GoError.redisNil => "redis: nil"
  | GoError.canceled => "context canceled"
  | GoError.errMsg s => s
  | GoError.wrap m e => m ++ ": " ++ goErrorString e

/-! ### BadgerDB backend (src/db/cache/badgerdb/badgerdb.go)

The BadgerDB engine is a byte-keyed byte-valued store; it is modelled as an
association list.  Per-entry TTLs never elapse in the verified claims, so
expiry is not modelled and `ttl` arguments do not affect the stored value.
The per-key queue mutex serialises mutating list operations; the embedding
is sequential, so each operation is one atomic step. -/

/-- A local backend engine state: keys to values. -/
abbrev Store := List (String × String)

/-- `strings.HasSuffix` / the suffix tests of the Go code, via character
lists (kernel-evaluable). -/
def goHasSuffix (s sfx : String) : Bool := sfx.data.isSuffixOf s.data

/-- The prefix test of the HGetAll prefix scans. -/
def goHasPre (s pre : String) : Bool := pre.data.isPrefixOf s.data

/-- Strip a known prefix (`bytes.TrimPrefix` / reslicing `k[len(pre):]`). -/
def goDropPre (s pre : String) : String := String.mk (s.data.drop pre.data.length)

/-- `BadgerDb.Get` (badgerdb.go:402-417): a View transaction reads the key;
`badger.ErrKeyNotFound` is translated to the shared `ErrKeyNotFound`. -/
def badgerGet (s : Store) (key : String) : Except GoError String :=
  match alistGet s key with
  | some v => Except.ok v
  | none => Except.error GoError.keyNotFound

/-- `BadgerDb.Set` (badgerdb.go:419-427): an Update transaction writes the
entry (with a TTL when `ttl > 0`); it does not fail in this model. -/
def badgerSet (s : Store) (key value : String) (ttl : Int) : Store :=
  alistSet s key value

/-- `BadgerDb.Delete` (badgerdb.go:429-433): badger's `txn.Delete` succeeds
whether or not the key exists. -/
def badgerDelete (s : Store) (key : String) : Store :=
  alistDel s key

/-- `BadgerDb.Exists` (badgerdb.go:435-444). -/
def badgerExists (s : Store) (key : String) : Except GoError Bool :=
  Except.ok (alistGet s key).isSome

/-- `BadgerDb.Expire` (badgerdb.go:446-460): one Update transaction re-reads
the old value and re-sets it with the TTL.  The `txn.Get` error is returned
as-is — `badger.ErrKeyNotFound` is NOT translated here. -/
def badgerExpire (s : Store) (key : String) (ttl : Int) : Except GoError Unit × Store :=
  match alistGet s key with
  | none => (Except.error GoError.badgerKeyNotFound, s)
  | some v => (Except.ok (), alistSet s key v)

/-- `BadgerDb.HGet` (badgerdb.go:462-465): composite key `key + ":" + field`. -/
def badgerHGet (s : Store) (key field : String) : Except GoError String :=
  badgerGet s (key ++ ":" ++ field)

/-- `BadgerDb.HSet` (badgerdb.go:466-469). -/
def badgerHSet (s : Store) (key field value : String) (ttl : Int) : Store :=
  badgerSet s (key ++ ":" ++ field) value ttl

/-- `BadgerDb.HDel` (badgerdb.go:471-474). -/
def badgerHDel (s : Store) (key field : String) : Store :=
  badgerDelete s (key ++ ":" ++ field)

/-- `BadgerDb.HGetAll` (badgerdb.go:476-497): iterate all keys with prefix
`key + ":"`, stripping the prefix to obtain field names.  The Go result is an
unordered map; the pair list returned here carries the same mapping. -/
def badgerHGetAll (s : Store) (key : String) : List (String × String) :=
  let pre := key ++ ":"
  (s.filter (fun e => goHasPre e.1 pre)).map (fun e => (goDropPre e.1 pre, e.2))

/-- `BadgerDb.LPush` (badgerdb.go:58-98). -/
def badgerLPush (s : Store) (key value : String) : Except GoError Unit × Store :=
  let headKey := key ++ ":head"
  let tailKey := key ++ ":tail"
  match badgerGet s headKey with
  | Except.error GoError.keyNotFound =>
    let s1 := badgerSet s headKey "0" 0
    let s2 := badgerSet s1 tailKey "1" 0
    let s3 := badgerSet s2 (key ++ ":0") value 0
    (Except.ok (), s3)
  | Except.error e => (Except.error e, s)
  | Except.ok headVal =>
    match goParseInt headVal with
    | none => (Except.error (GoError.errMsg "strconv.ParseInt"), s)
    | some headIndex0 =>
      let headIndex := headIndex0 - 1
      let s1 := badgerSet s (key ++ ":" ++ goFormatInt headIndex) value 0
      (Except.ok (), badgerSet s1 headKey (goFormatInt headIndex) 0)

/-- `BadgerDb.RPush` (badgerdb.go:109-149). -/
def badgerRPush (s : Store) (key value : String) : Except GoError Unit × Store :=
  let headKey := key ++ ":head"
  let tailKey := key ++ ":tail"
  match badgerGet s tailKey with
  | Except.error GoError.keyNotFound =>
    let s1 := badgerSet s headKey "0" 0
    let s2 := badgerSet s1 tailKey "1" 0
    let s3 := badgerSet s2 (key ++ ":0") value 0
    (Except.ok (), s3)
  | Except.error e => (Except.error e, s)
  | Except.ok tailVal =>
    match goParseInt tailVal with
    | none => (Except.error (GoError.errMsg "strconv.ParseInt"), s)
    | some tailIndex0 =>
      let s1 := badgerSet s (key ++ ":" ++ goFormatInt tailIndex0) value 0
      let tailIndex := tailIndex0 + 1
      (Except.ok (), badgerSet s1 tailKey (goFormatInt tailIndex) 0)

/-- `BadgerDb.LPop` (badgerdb.go:160-216). -/
def badgerLPop (s : Store) (key : String) : Except GoError String × Store :=
  let headKey := key ++ ":head"
  let tailKey := key ++ ":tail"
  match badgerGet s headKey with
  | Except.error GoError.keyNotFound => (Except.error GoError.keyNotFound, s)
  | Except.error e => (Except.error e, s)
  | Except.ok headVal =>
    match badgerGet s tailKey with
    | Except.error e => (Except.error e, s)
    | Except.ok tailVal =>
      match goParseInt headVal with
      | none => (Except.error (GoError.errMsg "strconv.ParseInt"), s)
      | some headIndex0 =>
        match goParseInt tailVal with
        | none => (Except.error (GoError.errMsg "strconv.ParseInt"), s)
        | some tailIndex =>
          if headIndex0 ≥ tailIndex then (Except.error GoError.keyNotFound, s)
          else
            let elementKey := key ++ ":" ++ goFormatInt headIndex0
            match badgerGet s elementKey with
            | Except.error e => (Except.error e, s)
            | Except.ok value =>
              let s1 := badgerDelete s elementKey
              let headIndex := headIndex0 + 1
              let s2 := badgerSet s1 headKey (goFormatInt headIndex) 0
              (Except.ok value, s2)

/-- `BadgerDb.RPop` (badgerdb.go:219-275). -/
def badgerRPop (s : Store) (key : String) : Except GoError String × Store :=
  let headKey := key ++ ":head"
  let tailKey := key ++ ":tail"
  match badgerGet s headKey with
  | Except.error GoError.keyNotFound => (Except.error GoError.keyNotFound, s)
  | Except.error e => (Except.error e, s)
  | Except.ok headVal =>
    match badgerGet s tailKey with
    | Except.error e => (Except.error e, s)
    | Except.ok tailVal =>
      match goParseInt headVal with
      | none => (Except.error (GoError.errMsg "strconv.ParseInt"), s)
      | some headIndex =>
        match goParseInt tailVal with
        | none => (Except.error (GoError.errMsg "strconv.ParseInt"), s)
        | some tailIndex0 =>
          if headIndex ≥ tailIndex0 then (Except.error GoError.keyNotFound, s)
          else
            let tailIndex := tailIndex0 - 1
            let elementKey := key ++ ":" ++ goFormatInt tailIndex
            match badgerGet s elementKey with
            | Except.error e => (Except.error e, s)
            | Except.ok value =>
              let s1 := badgerDelete s elementKey
              let s2 := badgerSet s1 tailKey (goFormatInt tailIndex) 0
              (Except.ok value, s2)

/-- `BadgerDb.Push` is an alias for `RPush` (badgerdb.go:291-293). -/
def badgerPush (s : Store) (key value : String) : Except GoError Unit × Store :=
  badgerRPush s key value

/-- `BadgerDb.Pop` is an alias for `LPop` (badgerdb.go:296-298). -/
def badgerPop (s : Store) (key : String) : Except GoError String × Store :=
  badgerLPop s key

/-- The element drain loop of `BadgerDb.PopAll` (badgerdb.go:337-348): for
each index, a failed read is skipped, otherwise the value is collected and
the element deleted (delete errors are discarded in the source). -/
def badgerPopAllLoop (key : String) : Nat → Int → Store → List String → List String × Store
  | 0, _, s, acc => (acc, s)
  | n + 1, i, s, acc =>
    match badgerGet s (key ++ ":" ++ goFormatInt i) with
    | Except.error _ => badgerPopAllLoop key n (i + 1) s acc
    | Except.ok v =>
      let s1 := badgerDelete s (key ++ ":" ++ goFormatInt i)
      badgerPopAllLoop key n (i + 1) s1 (acc ++ [v])

/-- `BadgerDb.PopAll` (badgerdb.go:301-355): drain the element band, then
delete the head and tail index keys. -/
def badgerPopAll (s : Store) (key : String) : Except GoError (List String) × Store :=
  let headKey := key ++ ":head"
  let tailKey := key ++ ":tail"
  match badgerGet s headKey with
  | Except.error GoError.keyNotFound => (Except.ok [], s)
  | Except.error e => (Except.error e, s)
  | Except.ok headVal =>
    match badgerGet s tailKey with
    | Except.error e => (Except.error e, s)
    | Except.ok tailVal =>
      match goParseInt headVal with
      | none => (Except.error (GoError.errMsg "strconv.ParseInt"), s)
      | some headIndex =>
        match goParseInt tailVal with
        | none => (Except.error (GoError.errMsg "strconv.ParseInt"), s)
        | some tailIndex =>
          if headIndex ≥ tailIndex then (Except.ok [], s)
          else
            let (result, s1) :=
              badgerPopAllLoop key (tailIndex - headIndex).toNat headIndex s []
            let s2 := badgerDelete s1 headKey
            let s3 := badgerDelete s2 tailKey
            (Except.ok result, s3)

/-- `BadgerDb.Len` (badgerdb.go:358-387): `tail − head`, `0` for an absent
list; reads only, no store change. -/
def badgerLen (s : Store) (key : String) : Except GoError Int :=
  let headKey := key ++ ":head"
  let tailKey := key ++ ":tail"
  match badgerGet s headKey with
  | Except.error GoError.keyNotFound => Except.ok 0
  | Except.error e => Except.error e
  | Except.ok headVal =>
    match badgerGet s tailKey with
    | Except.error e => Except.error e
    | Except.ok tailVal =>
      match goParseInt headVal with
      | none => Except.error (GoError.errMsg "strconv.ParseInt")
      | some headIndex =>
        match goParseInt tailVal with
        | none => Except.error (GoError.errMsg "strconv.ParseInt")
        | some tailIndex => Except.ok (tailIndex - headIndex)

/-! ### BuntDB backend (src/unnamed/part_002)

BuntDB's engine is an in-memory ordered key/value store with transactions.
Each `db.Update(fn)` commits the transaction's writes when `fn` returns nil
and rolls everything back when it returns an error; the `bunt…` operations
below therefore return the original store alongside any error. -/

/-- `buntdb.Tx.Get`: `buntdb.ErrNotFound` for a missing key. -/
def buntTxGet (s : Store) (key : String) : Except GoError String :=
  match alistGet s key with
  | some v => Except.ok v
  | none => Except.error GoError.buntNotFound

/-- `buntdb.Tx.Set` (with TTL options when `ttl > 0`); never fails here. -/
def buntTxSet (s : Store) (key value : String) (ttl : Int) : Store :=
  alistSet s key value

/-- `buntdb.Tx.Delete`: `buntdb.ErrNotFound` when the key is absent. -/
def buntTxDelete (s : Store) (key : String) : Except GoError Store :=
  match alistGet s key with
  | some _ => Except.ok (alistDel s key)
  | none => Except.error GoError.buntNotFound

/-- `BuntDb.Get` (part_002:56-71): `buntdb.ErrNotFound` is translated to the
shared `ErrKeyNotFound`. -/
def buntGet (s : Store) (key : String) : Except GoError String :=
  match buntTxGet s key with
  | Except.ok v => Except.ok v
  | Except.error e =>
    Except.error (if e = GoError.buntNotFound then GoError.keyNotFound else e)

/-- `BuntDb.Set` (part_002:73-82). -/
def buntSet (s : Store) (key value : String) (ttl : Int) : Store :=
  buntTxSet s key value ttl

/-- `BuntDb.Delete` (part_002:84-89): the `tx.Delete` error is returned
untranslated, and the update rolls back on error. -/
def buntDelete (s : Store) (key : String) : Except GoError Unit × Store :=
  match buntTxDelete s key with
  | Except.ok s1 => (Except.ok (), s1)
  | Except.error e => (Except.error e, s)

/-- `BuntDb.Exists` (part_002:91-100). -/
def buntExists (s : Store) (key : String) : Except GoError Bool :=
  match buntTxGet s key with
  | Except.ok _ => Except.ok true
  | Except.error GoError.buntNotFound => Except.ok false
  | Except.error e => Except.error e

/-- `BuntDb.Expire` (part_002:102-111): one Update transaction re-reads the
value and re-sets it with a TTL.  The `tx.Get` error is returned as-is —
`buntdb.ErrNotFound` is NOT translated here. -/
def buntExpire (s : Store) (key : String) (ttl : Int) : Except GoError Unit × Store :=
  match buntTxGet s key with
  | Except.error e => (Except.error e, s)
  | Except.ok v => (Except.ok (), buntTxSet s key v ttl)

/-- `BuntDb.HGet` (part_002:113-116). -/
def buntHGet (s : Store) (key field : String) : Except GoError String :=
  buntGet s (key ++ ":" ++ field)

/-- `BuntDb.HSet` (part_002:118-121). -/
def buntHSet (s : Store) (key field value : String) (ttl : Int) : Store :=
  buntSet s (key ++ ":" ++ field) value ttl

/-- `BuntDb.HDel` (part_002:123-126). -/
def buntHDel (s : Store) (key field : String) : Except GoError Unit × Store :=
  buntDelete s (key ++ ":" ++ field)

/-- `BuntDb.HGetAll` (part_002:128-141): `AscendKeys` over pattern
`key + ":*"`, stripping the prefix.  The Go result is an unordered map; the
pair list carries the same mapping. -/
def buntHGetAll (s : Store) (key : String) : List (String × String) :=
  let pre := key ++ ":"
  (s.filter (fun e => goHasPre e.1 pre)).map (fun e => (goDropPre e.1 pre, e.2))

/-- `BuntDb.LPush` (part_002:147-189): head and tail default to `0` when the
index keys are missing or unparsable; the element is written at `head−1`, the
head index updated, and the tail index (re)written only when the list was
empty (`head−1 = tail−1`). -/
def buntLPush (s : Store) (key value : String) : Except GoError Unit × Store :=
  let headKey := key ++ ":head"
  let tailKey := key ++ ":tail"
  let head :=
    match buntTxGet s headKey with
    | Except.ok hv => match goParseInt hv with | some h => h | none => 0
    | Except.error _ => 0
  let tail :=
    match buntTxGet s tailKey with
    | Except.ok tv => match goParseInt tv with | some t => t | none => 0
    | Except.error _ => 0
  let head1 := head - 1
  let s1 := buntTxSet s (key ++ ":elem:" ++ goFormatInt head1) value 0
  let s2 := buntTxSet s1 headKey (goFormatInt head1) 0
  if head1 = tail - 1 then (Except.ok (), buntTxSet s2 tailKey (goFormatInt tail) 0)
  else (Except.ok (), s2)

/-- `BuntDb.RPush` (part_002:191-233). -/
def buntRPush (s : Store) (key value : String) : Except GoError Unit × Store :=
  let headKey := key ++ ":head"
  let tailKey := key ++ ":tail"
  let head :=
    match buntTxGet s headKey with
    | Except.ok hv => match goParseInt hv with | some h => h | none => 0
    | Except.error _ => 0
  let tail :=
    match buntTxGet s tailKey with
    | Except.ok tv => match goParseInt tv with | some t => t | none => 0
    | Except.error _ => 0
  let s1 := buntTxSet s (key ++ ":elem:" ++ goFormatInt tail) value 0
  let tail1 := tail + 1
  let s2 := buntTxSet s1 tailKey (goFormatInt tail1) 0
  if tail1 - 1 = head then (Except.ok (), buntTxSet s2 headKey (goFormatInt head) 0)
  else (Except.ok (), s2)

/-- The transaction body of `BuntDb.LPop` (part_002:253-299). -/
def buntLPopBody (s : Store) (key : String) : Except GoError String × Store :=
  let headKey := key ++ ":head"
  let tailKey := key ++ ":tail"
  match buntTxGet s headKey with
  | Except.error e => (Except.error e, s)
  | Except.ok headVal =>
    match buntTxGet s tailKey with
    | Except.error e => (Except.error e, s)
    | Except.ok tailVal =>
      match goParseInt headVal with
      | none => (Except.error (GoError.errMsg "strconv.ParseInt"), s)
      | some head =>
        match goParseInt tailVal with
        | none => (Except.error (GoError.errMsg "strconv.ParseInt"), s)
        | some tail =>
          if head ≥ tail then (Except.error GoError.buntNotFound, s)
          else
            let elemKey := key ++ ":elem:" ++ goFormatInt head
            match buntTxGet s elemKey with
            | Except.error e => (Except.error e, s)
            | Except.ok val =>
              match buntTxDelete s elemKey with
              | Except.error e => (Except.error e, s)
              | Except.ok s1 =>
                (Except.ok val, buntTxSet s1 headKey (goFormatInt (head + 1)) 0)

/-- `BuntDb.LPop` (part_002:247-307): the Update rolls back on error and
`buntdb.ErrNotFound` is translated to the shared `ErrKeyNotFound`. -/
def buntLPop (s : Store) (key : String) : Except GoError String × Store :=
  match buntLPopBody s key with
  | (Except.error e, _) =>
    (Except.error (if e = GoError.buntNotFound then GoError.keyNotFound else e), s)
  | (Except.ok v, s1) => (Except.ok v, s1)

/-- The transaction body of `BuntDb.RPop` (part_002:324-370). -/
def buntRPopBody (s : Store) (key : String) : Except GoError String × Store :=
  let headKey := key ++ ":head"
  let tailKey := key ++ ":tail"
  match buntTxGet s headKey with
  | Except.error e => (Except.error e, s)
  | Except.ok headVal =>
    match buntTxGet s tailKey with
    | Except.error e => (Except.error e, s)
    | Except.ok tailVal =>
      match goParseInt headVal with
      | none => (Except.error (GoError.errMsg "strconv.ParseInt"), s)
      | some head =>
        match goParseInt tailVal with
        | none => (Except.error (GoError.errMsg "strconv.ParseInt"), s)
        | some tail =>
          if head ≥ tail then (Except.error GoError.buntNotFound, s)
          else
            let tail1 := tail - 1
            let elemKey := key ++ ":elem:" ++ goFormatInt tail1
            match buntTxGet s elemKey with
            | Except.error e => (Except.error e, s)
            | Except.ok val =>
              match buntTxDelete s elemKey with
              | Except.error e => (Except.error e, s)
              | Except.ok s1 =>
                (Except.ok val, buntTxSet s1 tailKey (goFormatInt tail1) 0)

/-- `BuntDb.RPop` (part_002:318-378). -/
def buntRPop (s : Store) (key : String) : Except GoError String × Store :=
  match buntRPopBody s key with
  | (Except.error e, _) =>
    (Except.error (if e = GoError.buntNotFound then GoError.keyNotFound else e), s)
  | (Except.ok v, s1) => (Except.ok v, s1)

/-- `BuntDb.Push` is an alias for `RPush` (part_002:143-145). -/
def buntPush (s : Store) (key value : String) : Except GoError Unit × Store :=
  buntRPush s key value

/-- `BuntDb.Pop` is an alias for `LPop` (part_002:234-236). -/
def buntPop (s : Store) (key : String) : Except GoError String × Store :=
  buntLPop s key

/-- The element drain loop of `BuntDb.PopAll` (part_002:416-430): missing
elements are skipped, a delete failure aborts (rolling the update back). -/
def buntPopAllLoop (key : String) :
    Nat → Int → Store → List String → Except GoError (List String × Store)
  | 0, _, s, acc => Except.ok (acc, s)
  | n + 1, i, s, acc =>
    match buntTxGet s (key ++ ":elem:" ++ goFormatInt i) with
    | Except.error _ => buntPopAllLoop key n (i + 1) s acc
    | Except.ok v =>
      match buntTxDelete s (key ++ ":elem:" ++ goFormatInt i) with
      | Except.error e => Except.error e
      | Except.ok s1 => buntPopAllLoop key n (i + 1) s1 (acc ++ [v])

/-- `BuntDb.PopAll` (part_002:380-443): a missing head or tail key commits
with an empty result; after draining, head and tail are both reset to "0". -/
def buntPopAll (s : Store) (key : String) : Except GoError (List String) × Store :=
  let headKey := key ++ ":head"
  let tailKey := key ++ ":tail"
  match buntTxGet s headKey with
  | Except.error _ => (Except.ok [], s)
  | Except.ok headVal =>
    match buntTxGet s tailKey with
    | Except.error _ => (Except.ok [], s)
    | Except.ok tailVal =>
      match goParseInt headVal with
      | none => (Except.error (GoError.errMsg "strconv.ParseInt"), s)
      | some head =>
        match goParseInt tailVal with
        | none => (Except.error (GoError.errMsg "strconv.ParseInt"), s)
        | some tail =>
          if head ≥ tail then (Except.ok [], s)
          else
            match buntPopAllLoop key (tail - head).toNat head s [] with
            | Except.error e => (Except.error e, s)
            | Except.ok (result, s1) =>
              let s2 := buntTxSet s1 headKey "0" 0
              let s3 := buntTxSet s2 tailKey "0" 0
              (Except.ok result, s3)

/-- `BuntDb.Len` (part_002:445-482): `tail − head` when positive, else 0;
missing index keys mean an absent list of length 0. -/
def buntLen (s : Store) (key : String) : Except GoError Int :=
  match buntTxGet s (key ++ ":head") with
  | Except.error _ => Except.ok 0
  | Except.ok headVal =>
    match buntTxGet s (key ++ ":tail") with
    | Except.error _ => Except.ok 0
    | Except.ok tailVal =>
      match goParseInt headVal with
      | none => Except.error (GoError.errMsg "strconv.ParseInt")
      | some head =>
        match goParseInt tailVal with
        | none => Except.error (GoError.errMsg "strconv.ParseInt")
        | some tail => Except.ok (if tail > head then tail - head else 0)

/-! ### Redis backend (src/db/cache/interface cache.go bundle, redis package)

The adapter delegates to the go-redis client against a Redis server; the
server's typed keyspace is modelled below (string values and list values; a
list command on a string key is a WRONGTYPE error, and Redis removes a list
key when its last element is popped). -/

inductive RedisVal : Type
  | str (s : String)
  | list (xs : List String)
deriving DecidableEq

/-- The Redis server keyspace. -/
abbrev RedisStore := List (String × RedisVal)

/-- Redis `LPUSH key value` (single value, as issued by the adapter). -/
def redisCmdLPush (s : RedisStore) (key value : String) : Except GoError RedisStore :=
  match alistGet s key with
  | none => Except.ok (alistSet s key (RedisVal.list [value]))
  | some (RedisVal.list xs) => Except.ok (alistSet s key (RedisVal.list (value :: xs)))
  | some (RedisVal.str _) => Except.error (GoError.errMsg "WRONGTYPE")

/-- Redis `RPUSH key value`. -/
def redisCmdRPush (s : RedisStore) (key value : String) : Except GoError RedisStore :=
  match alistGet s key with
  | none => Except.ok (alistSet s key (RedisVal.list [value]))
  | some (RedisVal.list xs) => Except.ok (alistSet s key (RedisVal.list (xs ++ [value])))
  | some (RedisVal.str _) => Except.error (GoError.errMsg "WRONGTYPE")

/-- Redis `LPOP key`: `redis.Nil` on a missing key. -/
def redisCmdLPop (s : RedisStore) (key : String) : Except GoError (String × RedisStore) :=
  match alistGet s key with
  | none => Except.error GoError.redisNil
  | some (RedisVal.list []) => Except.error GoError.redisNil
  | some (RedisVal.list (x :: xs)) =>
    Except.ok (x, if xs = [] then alistDel s key else alistSet s key (RedisVal.list xs))
  | some (RedisVal.str _) => Except.error (GoError.errMsg "WRONGTYPE")

/-- Redis `RPOP key`. -/
def redisCmdRPop (s : RedisStore) (key : String) : Except GoError (String × RedisStore) :=
  match alistGet s key with
  | none => Except.error GoError.redisNil
  | some (RedisVal.list xs) =>
    match xs.getLast? with
    | none => Except.error GoError.redisNil
    | some x =>
      Except.ok (x, if xs.dropLast = [] then alistDel s key
                    else alistSet s key (RedisVal.list xs.dropLast))
  | some (RedisVal.str _) => Except.error (GoError.errMsg "WRONGTYPE")

/-- Redis `LRANGE key 0 -1`: the whole list, `[]` for a missing key. -/
def redisCmdLRangeAll (s : RedisStore) (key : String) : Except GoError (List String) :=
  match alistGet s key with
  | none => Except.ok []
  | some (RedisVal.list xs) => Except.ok xs
  | some (RedisVal.str _) => Except.error (GoError.errMsg "WRONGTYPE")

/-- Redis `LLEN key`: `0` for a missing key. -/
def redisCmdLLen (s : RedisStore) (key : String) : Except GoError Int :=
  match alistGet s key with
  | none => Except.ok 0
  | some (RedisVal.list xs) => Except.ok (Int.ofNat xs.length)
  | some (RedisVal.str _) => Except.error (GoError.errMsg "WRONGTYPE")

/-- `RedisDb.LPush` (cache.go bundle, redis:192-194). -/
def redisLPush (s : RedisStore) (key value : String) : Except GoError Unit × RedisStore :=
  match redisCmdLPush s key value with
  | Except.ok s1 => (Except.ok (), s1)
  | Except.error e => (Except.error e, s)

/-- `RedisDb.RPush` (redis:205-207). -/
def redisRPush (s : RedisStore) (key value : String) : Except GoError Unit × RedisStore :=
  match redisCmdRPush s key value with
  | Except.ok s1 => (Except.ok (), s1)
  | Except.error e => (Except.error e, s)

/-- `RedisDb.LPop` (redis:218-225): `redis.Nil` is translated to the shared
`ErrKeyNotFound`. -/
def redisLPop (s : RedisStore) (key : String) : Except GoError String × RedisStore :=
  match redisCmdLPop s key with
  | Except.ok (v, s1) => (Except.ok v, s1)
  | Except.error e =>
    (Except.error (if e = GoError.redisNil then GoError.keyNotFound else e), s)

/-- `RedisDb.RPop` (redis:236-243). -/
def redisRPop (s : RedisStore) (key : String) : Except GoError String × RedisStore :=
  match redisCmdRPop s key with
  | Except.ok (v, s1) => (Except.ok v, s1)
  | Except.error e =>
    (Except.error (if e = GoError.redisNil then GoError.keyNotFound else e), s)

/-- `RedisDb.PopAll` (redis:397-406): a TxPipeline runs `LRANGE key 0 -1`
followed by `DEL key` atomically and returns the range. -/
def redisPopAll (s : RedisStore) (key : String) : Except GoError (List String) × RedisStore :=
  match redisCmdLRangeAll s key with
  | Except.error e => (Except.error e, s)
  | Except.ok xs => (Except.ok xs, alistDel s key)

/-- `RedisDb.Len` (redis:408-410). -/
def redisLen (s : RedisStore) (key : String) : Except GoError Int :=
  redisCmdLLen s key

/-- `RedisDb.Push` is an alias for `RPush` (redis:389-391). -/
def redisPushOp (s : RedisStore) (key value : String) : Except GoError Unit × RedisStore :=
  redisRPush s key value

/-- `RedisDb.Pop` is an alias for `LPop` (redis:393-395). -/
def redisPopOp (s : RedisStore) (key : String) : Except GoError String × RedisStore :=
  redisLPop s key

/-! ### The cache-parity trace of §8 item 6 on each backend -/

/-- Outcomes of `RPush "q" 1,2,3; Len; LPop; PopAll; Len; LPop` on a fresh
BadgerDB store: (length after pushes, first pop, drained elements, final
length, pop from empty). -/
def badgerParityTrace :
    Except GoError Int × Except GoError String × Except GoError (List String) ×
      Except GoError Int × Except GoError String :=
  let s1 := (badgerRPush [] "q" "1").2
  let s2 := (badgerRPush s1 "q" "2").2
  let s3 := (badgerRPush s2 "q" "3").2
  let len3 := badgerLen s3 "q"
  let r1 := badgerLPop s3 "q"
  let r2 := badgerPopAll r1.2 "q"
  let len0 := badgerLen r2.2 "q"
  let r3 := badgerLPop r2.2 "q"
  (len3, r1.1, r2.1, len0, r3.1)

/-- The same trace on a fresh BuntDB store. -/
def buntParityTrace :
    Except GoError Int × Except GoError String × Except GoError (List String) ×
      Except GoError Int × Except GoError String :=
  let s1 := (buntRPush [] "q" "1").2
  let s2 := (buntRPush s1 "q" "2").2
  let s3 := (buntRPush s2 "q" "3").2
  let len3 := buntLen s3 "q"
  let r1 := buntLPop s3 "q"
  let r2 := buntPopAll r1.2 "q"
  let len0 := buntLen r2.2 "q"
  let r3 := buntLPop r2.2 "q"
  (len3, r1.1, r2.1, len0, r3.1)

/-- The same trace on a fresh Redis keyspace. -/
def redisParityTrace :
    Except GoError Int × Except GoError String × Except GoError (List String) ×
      Except GoError Int × Except GoError String :=
  let s1 := (redisRPush [] "q" "1").2
  let s2 := (redisRPush s1 "q" "2").2
  let s3 := (redisRPush s2 "q" "3").2
  let len3 := redisLen s3 "q"
  let r1 := redisLPop s3 "q"
  let r2 := redisPopAll r1.2 "q"
  let len0 := redisLen r2.2 "q"
  let r3 := redisLPop r2.2 "q"
  (len3, r1.1, r2.1, len0, r3.1)

/-! ### Structured values, content items and call results (src/plugin/result.go) -/

/-- An uninterpreted float64 literal: the embedded code only stores float
values, never computes with them, so the bit pattern is an opaque token. -/
structure GoFloat where
  bits : Nat
deriving DecidableEq

/-- A structured Go value as carried in `map[string]interface{}` payloads,
schema property maps and struct content. -/
inductive JValue : Type
  | null
  | boolean (b : Bool)
  | intVal (i : Int)
  | floatVal (f : GoFloat)
  | strVal (s : String)
  | arr (xs : List JValue)
  | obj (fields : List (String × JValue))

/-- `ContentType` is a string type in the source ("text" / "file" / "struct"). -/
abbrev ContentType := String

/-- `FileType` is a string type ("image", "audio", …). -/
abbrev FileType := String

/-- `TextContent` (result.go:77-81); absent optional fields are Go zero
values (empty strings). -/
structure TextContent where
  type : ContentType
  text : String
  name : String
deriving DecidableEq

/-- `FileContent` (result.go:111-136). -/
structure FileContent where
  type : ContentType
  fileType : FileType
  data : String
  mimeType : String
  name : String
  size : Int
  width : Int
  height : Int
  duration : GoFloat
  bitrate : Int
  pageCount : Int
  author : String
  encoding : String
  checksum : String
  url : String
  metadata : List (String × JValue)

/-- `StructContent` (result.go:185-191). -/
structure StructContent where
  type : ContentType
  data : JValue
  name : String
  schema : String
  format : String

/-- The `Content` interface: a tagged union of the three content variants. -/
inductive Content : Type
  | text (tc : TextContent)
  | file (fc : FileContent)
  | structC (sc : StructContent)

/-- `CallToolResult` (result.go:217-224) with the embedded `Result` meta map. -/
structure CallToolResult where
  meta : List (String × JValue)
  content : List Content
  isError : Bool

/-- `NewCallToolResult` (result.go:227-232). -/
def newCallToolResult : CallToolResult :=
  { meta := [], content := [], isError := false }

/-- `CallToolResult.AddTextContent` (result.go:235-245); the variadic `name`
is an optional argument whose first element is used. -/
def addTextContent (ctr : CallToolResult) (text : String) (name : Option String) :
    CallToolResult :=
  let c : TextContent := { type := "text", text := text, name := name.getD "" }
  { ctr with content := ctr.content ++ [Content.text c] }

/-- A `FileContent` as built by `AddFileContent`/`NewFileContent`: optional
attributes are zero values. -/
def mkFileContent (fileType data mimeType : String) (name : Option String) : FileContent :=
  { type := "file", fileType := fileType, data := data, mimeType := mimeType,
    name := name.getD "", size := 0, width := 0, height := 0, duration := ⟨0⟩,
    bitrate := 0, pageCount := 0, author := "", encoding := "", checksum := "",
    url := "", metadata := [] }

/-- `CallToolResult.AddFileContent` (result.go:248-260). -/
def addFileContent (ctr : CallToolResult) (fileType data mimeType : String)
    (name : Option String) : CallToolResult :=
  { ctr with content := ctr.content ++ [Content.file (mkFileContent fileType data mimeType name)] }

/-- `AddImageContent` (result.go:263-265). -/
def addImageContent (ctr : CallToolResult) (data mimeType : String) (name : Option String) :
    CallToolResult :=
  addFileContent ctr "image" data mimeType name

/-- `AddAudioContent` (result.go:268-270). -/
def addAudioContent (ctr : CallToolResult) (data mimeType : String) (name : Option String) :
    CallToolResult :=
  addFileContent ctr "audio" data mimeType name

/-- `AddVideoContent` (result.go:273-275). -/
def addVideoContent (ctr : CallToolResult) (data mimeType : String) (name : Option String) :
    CallToolResult :=
  addFileContent ctr "video" data mimeType name

/-- `AddDocumentContent` (result.go:278-280). -/
def addDocumentContent (ctr : CallToolResult) (data mimeType : String) (name : Option String) :
    CallToolResult :=
  addFileContent ctr "document" data mimeType name

/-- `validateStructType` (result.go:11-48): structs, maps, slices and arrays
are structured; nil, scalars and strings are rejected. -/
def validateStructOk : JValue → Bool
  | JValue.obj _ => true
  | JValue.arr _ => true
  | _ => false

/-- `CallToolResult.AddStructContent` (result.go:285-299).  On invalid data
the Go method panics, so no result object is produced there; the embedding
leaves the result unchanged in that case (the unchanged result is reachable
anyway by omitting the call). -/
def addStructContent (ctr : CallToolResult) (data : JValue) (name : Option String) :
    CallToolResult :=
  if validateStructOk data then
    let c : StructContent :=
      { type := "struct", data := data, name := name.getD "", schema := "", format := "" }
    { ctr with content := ctr.content ++ [Content.structC c] }
  else ctr

/-- `CallToolResult.SetError` (result.go:302-305): sets the flag only. -/
def setError (ctr : CallToolResult) (isError : Bool) : CallToolResult :=
  { ctr with isError := isError }

/-- `CallToolResult.SetMeta` (result.go:308-314). -/
def setMeta (ctr : CallToolResult) (key : String) (value : JValue) : CallToolResult :=
  { ctr with meta := alistSet ctr.meta key value }

/-- `NewErrorResult` (result.go:382-393). -/
def newErrorResult (errorMessage : String) : CallToolResult :=
  { meta := [],
    content := [Content.text { type := "text", text := errorMessage, name := "error" }],
    isError := true }

/-- `CallToolArgs` (plugin.go:114-117). -/
structure CallToolArgs where
  toolName : String
  params : List (String × JValue)

/-- `ToolPluginRPCServer.CallTool` (plugin.go:141-150): a failure of the
plugin's tool logic is encoded as a `NewErrorResult` and the RPC itself
returns nil error. -/
def rpcServerCallTool
    (impl : String → List (String × JValue) → Except GoError CallToolResult)
    (args : CallToolArgs) : CallToolResult × Option GoError :=
  match impl args.toolName args.params with
  | Except.error err => (newErrorResult ("调用工具失败: " ++ goErrorString err), none)
  | Except.ok result => (result, none)

/-! ### The result-construction programs of the public API (for claim C9) -/

/-- One mutating call on a `CallToolResult` from the package's public API. -/
inductive ResultOp : Type
  | addText (text : String) (name : Option String)
  | addFile (fileType data mimeType : String) (name : Option String)
  | addImage (data mimeType : String) (name : Option String)
  | addAudio (data mimeType : String) (name : Option String)
  | addVideo (data mimeType : String) (name : Option String)
  | addDocument (data mimeType : String) (name : Option String)
  | addStruct (data : JValue) (name : Option String)
  | setErr (isError : Bool)
  | setMetaOp (key : String) (value : JValue)

/-- The two result constructors of the API. -/
inductive ResultStart : Type
  | empty
  | errorResult (msg : String)

def applyResultOp (ctr : CallToolResult) : ResultOp → CallToolResult
  | ResultOp.addText t n => addTextContent ctr t n
  | ResultOp.addFile ft d m n => addFileContent ctr ft d m n
  | ResultOp.addImage d m n => addImageContent ctr d m n
  | ResultOp.addAudio d m n => addAudioContent ctr d m n
  | ResultOp.addVideo d m n => addVideoContent ctr d m n
  | ResultOp.addDocument d m n => addDocumentContent ctr d m n
  | ResultOp.addStruct d n => addStructContent ctr d n
  | ResultOp.setErr b => setError ctr b
  | ResultOp.setMetaOp k v => setMeta ctr k v

/-- A `CallToolResult` built through the public API: one constructor call
followed by any sequence of mutating calls. -/
def buildResult (start : ResultStart) (ops : List ResultOp) : CallToolResult :=
  ops.foldl applyResultOp
    (match start with
     | ResultStart.empty => newCallToolResult
     | ResultStart.errorResult msg => newErrorResult msg)

/-- Whether a result contains at least one `TextContent` item. -/
def hasTextContent (r : CallToolResult) : Bool :=
  r.content.any fun c =>
    match c with
    | Content.text _ => true
    | _ => false

theorem hasTextContent_applyResultOp (r : CallToolResult) (op : ResultOp)
    (h : hasTextContent r = true) : hasTextContent (applyResultOp r op) = true := by
  cases op <;>
    simp only [applyResultOp, addTextContent, addFileContent, addImageContent,
      addAudioContent, addVideoContent, addDocumentContent, addStructContent,
      setError, setMeta, hasTextContent, List.any_append, List.any_cons,
      List.any_nil, Bool.or_eq_true] at h ⊢ <;>
    first
      | exact Or.inl h
      | (try split) <;> simp_all [hasTextContent]

theorem hasTextContent_foldl (ops : List ResultOp) :
    ∀ r : CallToolResult, hasTextContent r = true →
      hasTextContent (ops.foldl applyResultOp r) = true := by
  induction ops with
  | nil => intro r h; simpa using h
  | cons op ops ih =>
    intro r h
    exact ih (applyResultOp r op) (hasTextContent_applyResultOp r op h)

/-! ### Tool schema builder (src/unnamed/part_007, plugin/tool.go) -/

/-- A JSON-Schema property body: `map[string]any`. -/
abbrev SMap := List (String × JValue)

/-- `ToolInputSchema` (tool.go:16-20). -/
structure ToolInputSchema where
  type : String
  properties : SMap
  required : List String

/-- `Tool` (tool.go:8-13); `RawInputSchema` is an opaque JSON blob carried
verbatim. -/
structure Tool where
  name : String
  description : String
  inputSchema : ToolInputSchema
  rawInputSchema : String

/-- The closed set of `PropertyOption` constructors of tool.go, as a syntax
tree; applying one is `applyPropOpt`. -/
inductive PropOpt : Type
  | description (desc : String)
  | required
  | defaultVal (value : JValue)
  | enum (values : List JValue)
  | minLength (n : Int)
  | maxLength (n : Int)
  | pattern (p : String)
  | format (f : String)
  | minimum (m : GoFloat)
  | maximum (m : GoFloat)
  | exclusiveMinimum (m : GoFloat)
  | exclusiveMaximum (m : GoFloat)
  | multipleOf (v : GoFloat)
  | properties (props : SMap)
  | additionalProperties (schema : JValue)
  | minProperties (n : Int)
  | maxProperties (n : Int)
  | propertyNames (schema : SMap)
  | items (schema : JValue)
  | minItems (n : Int)
  | maxItems (n : Int)
  | uniqueItems (unique : Bool)
  | withStringItems (opts : List PropOpt)
  | withStringEnumItems (values : List String)
  | withNumberItems (opts : List PropOpt)
  | withIntegerItems (opts : List PropOpt)
  | withBooleanItems (opts : List PropOpt)
  | withObjectItems (opts : List PropOpt)

mutual

/-- Application of one `PropertyOption` to a property body (tool.go:57-356):
each option stores its value under its JSON-Schema key; `Required()` stores
`"required" = true`; the `With…Items` helpers build an item schema from a
typed seed and nested options and store it under `"items"`. -/
def applyPropOpt (schema : SMap) : PropOpt → SMap
  | PropOpt.description d => alistSet schema "description" (JValue.strVal d)
  | PropOpt.required => alistSet schema "required" (JValue.boolean true)
  | PropOpt.defaultVal v => alistSet schema "default" v
  | PropOpt.enum vs => alistSet schema "enum" (JValue.arr vs)
  | PropOpt.minLength n => alistSet schema "minLength" (JValue.intVal n)
  | PropOpt.maxLength n => alistSet schema "maxLength" (JValue.intVal n)
  | PropOpt.pattern p => alistSet schema "pattern" (JValue.strVal p)
  | PropOpt.format f => alistSet schema "format" (JValue.strVal f)
  | PropOpt.minimum m => alistSet schema "minimum" (JValue.floatVal m)
  | PropOpt.maximum m => alistSet schema "maximum" (JValue.floatVal m)
  | PropOpt.exclusiveMinimum m => alistSet schema "exclusiveMinimum" (JValue.floatVal m)
  | PropOpt.exclusiveMaximum m => alistSet schema "exclusiveMaximum" (JValue.floatVal m)
  | PropOpt.multipleOf v => alistSet schema "multipleOf" (JValue.floatVal v)
  | PropOpt.properties props => alistSet schema "properties" (JValue.obj props)
  | PropOpt.additionalProperties sc => alistSet schema "additionalProperties" sc
  | PropOpt.minProperties n => alistSet schema "minProperties" (JValue.intVal n)
  | PropOpt.maxProperties n => alistSet schema "maxProperties" (JValue.intVal n)
  | PropOpt.propertyNames sc => alistSet schema "propertyNames" (JValue.obj sc)
  | PropOpt.items sc => alistSet schema "items" sc
  | PropOpt.minItems n => alistSet schema "minItems" (JValue.intVal n)
  | PropOpt.maxItems n => alistSet schema "maxItems" (JValue.intVal n)
  | PropOpt.uniqueItems u => alistSet schema "uniqueItems" (JValue.boolean u)
  | PropOpt.withStringItems opts =>
    alistSet schema "items"
      (JValue.obj (applyPropOpts [("type", JValue.strVal "string")] opts))
  | PropOpt.withStringEnumItems vs =>
    alistSet schema "items"
      (JValue.obj [("type", JValue.strVal "string"),
                   ("enum", JValue.arr (vs.map JValue.strVal))])
  | PropOpt.withNumberItems opts =>
    alistSet schema "items"
      (JValue.obj (applyPropOpts [("type", JValue.strVal "number")] opts))
  | PropOpt.withIntegerItems opts =>
    alistSet schema "items"
      (JValue.obj (applyPropOpts [("type", JValue.strVal "integer")] opts))
  | PropOpt.withBooleanItems opts =>
    alistSet schema "items"
      (JValue.obj (applyPropOpts [("type", JValue.strVal "boolean")] opts))
  | PropOpt.withObjectItems opts =>
    alistSet schema "items"
      (JValue.obj (applyPropOpts
        [("type", JValue.strVal "object"), ("properties", JValue.obj [])] opts))

/-- Sequential application of property options (`for _, opt := range opts`). -/
def applyPropOpts (schema : SMap) : List PropOpt → SMap
  | [] => schema
  | o :: os => applyPropOpts (applyPropOpt schema o) os

end

/-- `withType` (tool.go:183-211): build the property body from the typed
seed and the options; when the body carries `required == true`, remove that
entry and append the property name to the schema's required list. -/
def withType (propertyType name : String) (opts : List PropOpt) (t : Tool) : Tool :=
  let schema0 : SMap := [("type", JValue.strVal propertyType)]
  let schema1 :=
    if propertyType = "object" then alistSet schema0 "properties" (JValue.obj [])
    else schema0
  let schema := applyPropOpts schema1 opts
  match alistGet schema "required" with
  | some (JValue.boolean true) =>
    let schema2 := alistDel schema "required"
    { t with inputSchema :=
        { t.inputSchema with
          required := t.inputSchema.required ++ [name],
          properties := alistSet t.inputSchema.properties name (JValue.obj schema2) } }
  | _ =>
    { t with inputSchema :=
        { t.inputSchema with
          properties := alistSet t.inputSchema.properties name (JValue.obj schema) } }

/-- The closed set of `ToolOption` constructors of tool.go. -/
inductive ToolOpt : Type
  | withName (name : String)
  | withDescription (description : String)
  | withString (name : String) (opts : List PropOpt)
  | withNumber (name : String) (opts : List PropOpt)
  | withInteger (name : String) (opts : List PropOpt)
  | withBoolean (name : String) (opts : List PropOpt)
  | withObject (name : String) (opts : List PropOpt)
  | withArray (name : String) (opts : List PropOpt)

/-- Application of one `ToolOption` (tool.go:44-55 and 152-180). -/
def applyToolOpt (t : Tool) : ToolOpt → Tool
  | ToolOpt.withName n => { t with name := n }
  | ToolOpt.withDescription d => { t with description := d }
  | ToolOpt.withString n opts => withType "string" n opts t
  | ToolOpt.withNumber n opts => withType "number" n opts t
  | ToolOpt.withInteger n opts => withType "integer" n opts t
  | ToolOpt.withBoolean n opts => withType "boolean" n opts t
  | ToolOpt.withObject n opts => withType "object" n opts t
  | ToolOpt.withArray n opts => withType "array" n opts t

/-- `NewTool` (tool.go:358-375): seed with an object-rooted input schema and
fold the options over it. -/
def newTool (name description : String) (options : List ToolOpt) : Tool :=
  options.foldl applyToolOpt
    { name := name, description := description,
      inputSchema := { type := "object", properties := [], required := [] },
      rawInputSchema := "" }

theorem applyPropOpt_required_preserved (schema : SMap) (op : PropOpt)
    (h : op ≠ PropOpt.required) :
    alistGet (applyPropOpt schema op) "required" = alistGet schema "required" := by
  cases op <;>
    first
      | exact absurd rfl h
      | (refine alistGet_set_ne _ _ ?_; decide)

theorem applyPropOpts_required_true (ops : List PropOpt) :
    ∀ schema : SMap,
      (PropOpt.required ∈ ops ∨ alistGet schema "required" = some (JValue.boolean true)) →
      alistGet (applyPropOpts schema ops) "required" = some (JValue.boolean true) := by
  induction ops with
  | nil =>
    intro schema h
    cases h with
    | inl h => cases h
    | inr h => simpa [applyPropOpts] using h
  | cons o os ih =>
    intro schema h
    simp only [applyPropOpts]
    by_cases ho : o = PropOpt.required
    · subst ho
      apply ih
      right
      simp [applyPropOpt, alistGet_set_eq]
    · apply ih
      cases h with
      | inl h =>
        cases List.mem_cons.mp h with
        | inl h2 => exact absurd h2.symm ho
        | inr h2 => exact Or.inl h2
      | inr h =>
        right
        rw [applyPropOpt_required_preserved schema o ho]
        exact h

theorem applyToolOpt_type (t : Tool) (op : ToolOpt) :
    (applyToolOpt t op).inputSchema.type = t.inputSchema.type := by
  cases op <;> simp only [applyToolOpt, withType] <;> first | rfl | (split <;> rfl)

theorem foldl_applyToolOpt_type (options : List ToolOpt) :
    ∀ t : Tool, (options.foldl applyToolOpt t).inputSchema.type = t.inputSchema.type := by
  induction options with
  | nil => intro t; rfl
  | cons o os ih => intro t; rw [List.foldl_cons, ih, applyToolOpt_type]

theorem withType_required_spec (propertyType pname : String) (popts : List PropOpt)
    (t : Tool) (h : PropOpt.required ∈ popts) :
    (withType propertyType pname popts t).inputSchema.required
        = t.inputSchema.required ++ [pname] ∧
    ∃ body : SMap,
      alistGet (withType propertyType pname popts t).inputSchema.properties pname
          = some (JValue.obj body) ∧
      alistGet body "required" = none := by
  simp only [withType]
  rw [applyPropOpts_required_true popts _ (Or.inl h)]
  exact ⟨rfl, _, alistGet_set_eq _ _ _, alistGet_del_eq _ _⟩

/-! ### Plugin manager (src/plugin/plugin.go) -/

/-- A running plugin instance as reached through `ToolPluginInterface`:
the host invokes `CallTool` on it across the RPC boundary. -/
structure PluginInstance where
  callTool : String → List (String × JValue) → Except GoError CallToolResult

/-- `PluginInfo` (plugin.go:56-61). -/
structure PluginInfo where
  name : String
  version : String
  description : String
  author : String

/-- `LoadedPlugin` (plugin.go:225-232); the `Client` process handle carries
no observable state in this embedding and is omitted. -/
structure LoadedPlugin where
  name : String
  path : String
  inst : PluginInstance
  info : PluginInfo
  tools : List Tool

/-- `PluginManager` (plugin.go:236-240): the two indices.  The RW mutex
serialises access; the embedding is sequential. -/
structure PluginManager where
  plugins : List (String × LoadedPlugin)
  toolMap : List (String × LoadedPlugin)

/-- `NewPluginManager` (plugin.go:243-248). -/
def newPluginManager : PluginManager := { plugins := [], toolMap := [] }

/-- `PluginManager.GetPluginByTool` (plugin.go:404-410). -/
def pmGetPluginByTool (pm : PluginManager) (toolName : String) : Option LoadedPlugin :=
  alistGet pm.toolMap toolName

/-- `PluginManager.GetPlugin` (plugin.go:395-401). -/
def pmGetPlugin (pm : PluginManager) (name : String) : Option LoadedPlugin :=
  alistGet pm.plugins name

/-- `PluginManager.CallTool` (plugin.go:437-446): resolve the owning plugin
through the tool index and delegate; an unknown tool is a host-level error. -/
def pmCallTool (pm : PluginManager) (toolName : String)
    (params : List (String × JValue)) : Except GoError CallToolResult :=
  match pmGetPluginByTool pm toolName with
  | none => Except.error (GoError.errMsg ("工具 '" ++ toolName ++ "' 不存在"))
  | some p => p.inst.callTool toolName params

/-- What a `CallToolWithContext` call can do.  The source (plugin.go:512-536)
starts a goroutine that runs `pm.CallTool` unconditionally and then selects
between the result channels and `ctx.Done()`; with a cancelled context both
the cancellation branch and the goroutine's result are ready-able, so either
may be returned, while the dispatch goroutine runs regardless. -/
structure CtxCallOutcome where
  /-- The returns the select statement may produce. -/
  possible : List (Except GoError CallToolResult)
  /-- Whether the dispatch goroutine reaches the plugin's `CallTool`
  (it does exactly when the tool index resolves the name). -/
  pluginInvoked : Bool

/-- `PluginManager.CallToolWithContext` (plugin.go:512-536).  There is no
cancellation check before the goroutine is started; cancellation is only a
third `select` branch, returning `fmt.Errorf("工具调用被取消: %w", ctx.Err())`. -/
def pmCallToolWithContext (pm : PluginManager) (ctxCancelled : Bool)
    (toolName : String) (params : List (String × JValue)) : CtxCallOutcome :=
  let goroutineResult := pmCallTool pm toolName params
  { possible :=
      if ctxCancelled then
        [Except.error (GoError.wrap "工具调用被取消" GoError.canceled), goroutineResult]
      else [goroutineResult],
    pluginInvoked := (pmGetPluginByTool pm toolName).isSome }

/-- Result of the struct-parameter context variant, which is sequential. -/
structure StructCtxOutcome where
  result : Except GoError CallToolResult
  pluginInvoked : Bool

/-- `PluginManager.CallToolWithStructContext` (plugin.go:541-577): checks
`ctx.Done()` FIRST and returns `ctx.Err()` without resolving or invoking the
plugin; otherwise resolves and delegates (the generic-interface branch and
the map conversion both end in the instance's `CallTool`). -/
def pmCallToolWithStructContext (pm : PluginManager) (ctxCancelled : Bool)
    (toolName : String) (params : List (String × JValue)) : StructCtxOutcome :=
  if ctxCancelled then
    { result := Except.error GoError.canceled, pluginInvoked := false }
  else
    match pmGetPluginByTool pm toolName with
    | none =>
      { result := Except.error (GoError.errMsg ("找不到工具: " ++ toolName)),
        pluginInvoked := false }
    | some p =>
      { result := p.inst.callTool toolName params, pluginInvoked := true }

/-- `filepath.Base` for the slash-free-tail paths handed to `LoadPlugin`:
the characters after the last `/`. -/
def baseName (path : String) : String :=
  String.mk ((path.data.reverse.takeWhile (fun c => c ≠ '/')).reverse)

/-- `strings.TrimSuffix`. -/
def trimSuffix (s sfx : String) : String :=
  if goHasSuffix s sfx then String.mk (s.data.take (s.data.length - sfx.data.length))
  else s

/-- The derived plugin name (plugin.go:281-282): base name with the
`.tool.plugin` suffix trimmed. -/
def fileStem (path : String) : String :=
  trimSuffix (baseName path) ".tool.plugin"

/-- The externally determined outcomes of loading one plugin binary: spawn
plus handshake (`client.Client()`), `Dispense("tool")`, and the two initial
RPCs. -/
structure PluginWorld where
  connect : Except GoError Unit
  dispense : Except GoError PluginInstance
  getPluginInfo : Except GoError PluginInfo
  getTools : Except GoError (List Tool)

/-- What one `LoadPlugin` call did: its return value, whether the child
process was killed, and the manager state afterwards. -/
structure LoadOutcome where
  result : Except GoError LoadedPlugin
  killed : Bool
  mgrAfter : PluginManager

/-- `PluginManager.LoadPlugin` (plugin.go:279-340): derive the name, connect
(spawn + handshake), dispense the instance, fetch info, fetch tools, and
return the built `LoadedPlugin`; on any failure `client.Kill()` runs and an
error is returned.  The function reads and writes none of the manager's
maps, so `mgrAfter` is always the incoming state. -/
def pmLoadPlugin (pm : PluginManager) (w : PluginWorld) (pluginPath : String) :
    LoadOutcome :=
  let pluginName := fileStem pluginPath
  match w.connect with
  | Except.error e =>
    { result := Except.error (GoError.errMsg
        ("连接插件 " ++ pluginName ++ " 失败: " ++ goErrorString e)),
      killed := true, mgrAfter := pm }
  | Except.ok _ =>
    match w.dispense with
    | Except.error e =>
      { result := Except.error (GoError.errMsg
          ("获取插件实例 " ++ pluginName ++ " 失败: " ++ goErrorString e)),
        killed := true, mgrAfter := pm }
    | Except.ok toolPlugin =>
      match w.getPluginInfo with
      | Except.error e =>
        { result := Except.error (GoError.errMsg
            ("获取插件信息 " ++ pluginName ++ " 失败: " ++ goErrorString e)),
          killed := true, mgrAfter := pm }
      | Except.ok pluginInfo =>
        match w.getTools with
        | Except.error e =>
          { result := Except.error (GoError.errMsg
              ("获取插件工具 " ++ pluginName ++ " 失败: " ++ goErrorString e)),
            killed := true, mgrAfter := pm }
        | Except.ok tools =>
          { result := Except.ok
              { name := pluginName, path := pluginPath, inst := toolPlugin,
                info := pluginInfo, tools := tools },
            killed := false, mgrAfter := pm }

/-! ### Plugin discovery (plugin.go:253-274) -/

/-- A filesystem (sub)tree: a non-directory node (regular file, symlink,
device, …) with its permission bits, or a directory. `filepath.Walk` visits
a directory's entries in lexical order; child lists here are taken in that
order, so the walk order is a function of the tree. -/
inductive FsTree : Type
  | file (name : String) (regular : Bool) (mode : Nat)
  | dir (name : String) (children : List FsTree)

def fsTreeName : FsTree → String
  | FsTree.file n _ _ => n
  | FsTree.dir n _ => n

mutual

/-- `PluginManager.ScanPlugins` (plugin.go:253-274): `filepath.Walk` from
the root; the walk function keeps every entry whose path ends in
`.tool.plugin`, that is not a directory, and whose mode has any execute bit
(`info.Mode()&0111 != 0`). -/
def scanWalk (path : String) : FsTree → List String
  | FsTree.file _ _ mode =>
    if goHasSuffix path ".tool.plugin" && (mode &&& 0o111 != 0) then [path] else []
  | FsTree.dir _ children => scanWalkChildren path children

def scanWalkChildren (path : String) : List FsTree → List String
  | [] => []
  | c :: cs => scanWalk (path ++ "/" ++ fsTreeName c) c ++ scanWalkChildren path cs

end

mutual

/-- Every non-directory entry beneath (and including) a node, with its walk
path, regular-file flag and mode, in walk order. -/
def fsFiles (path : String) : FsTree → List (String × Bool × Nat)
  | FsTree.file _ regular mode => [(path, regular, mode)]
  | FsTree.dir _ children => fsFilesChildren path children

def fsFilesChildren (path : String) : List FsTree → List (String × Bool × Nat)
  | [] => []
  | c :: cs => fsFiles (path ++ "/" ++ fsTreeName c) c ++ fsFilesChildren path cs

end

/-- `PluginManager.LoadAllPlugins`' load loop (plugin.go:365-382): each
discovered path is loaded; failures are counted and skipped; a success is
inserted into both manager maps under the plugin and tool names. -/
def pmLoadLoop (worlds : String → PluginWorld) :
    List String → PluginManager → Nat → Nat → PluginManager × Nat × Nat
  | [], pm, loaded, failed => (pm, loaded, failed)
  | p :: ps, pm, loaded, failed =>
    match (pmLoadPlugin pm (worlds p) p).result with
    | Except.error _ => pmLoadLoop worlds ps pm loaded (failed + 1)
    | Except.ok lp =>
      let pm1 : PluginManager :=
        { plugins := alistSet pm.plugins lp.name lp,
          toolMap := lp.tools.foldl (fun m tool => alistSet m tool.name lp) pm.toolMap }
      pmLoadLoop worlds ps pm1 (loaded + 1) failed

/-- `PluginManager.LoadAllPlugins` (plugin.go:344-392): scan, return nil on
an empty scan, else load each path, and fail only when no plugin loaded. -/
def pmLoadAllPlugins (pm : PluginManager) (fs : FsTree) (rootPath : String)
    (worlds : String → PluginWorld) : PluginManager × Option GoError :=
  let pluginPaths := scanWalk rootPath fs
  if pluginPaths.isEmpty then (pm, none)
  else
    match pmLoadLoop worlds pluginPaths pm 0 0 with
    | (pm1, loaded, _) =>
      if loaded = 0 then (pm1, some (GoError.errMsg "没有成功加载任何插件"))
      else (pm1, none)

/-- `PluginManager.Shutdown` (plugin.go:580-595): kill every client and
clear both maps. -/
def pmShutdown (pm : PluginManager) : PluginManager :=
  { plugins := [], toolMap := [] }

mutual

theorem scanWalk_eq_filter (path : String) (t : FsTree) :
    scanWalk path t =
      ((fsFiles path t).filter
        (fun e => goHasSuffix e.1 ".tool.plugin" && (e.2.2 &&& 0o111 != 0))).map
        (fun e => e.1) := by
  cases t with
  | file n regular mode =>
    by_cases hc : (goHasSuffix path ".tool.plugin" && (mode &&& 0o111 != 0)) = true
    · simp [scanWalk, fsFiles, List.filter_cons, hc]
    · simp [scanWalk, fsFiles, List.filter_cons, hc]
  | dir n children =>
    simpa [scanWalk, fsFiles] using scanWalkChildren_eq_filter path children

theorem scanWalkChildren_eq_filter (path : String) (ts : List FsTree) :
    scanWalkChildren path ts =
      ((fsFilesChildren path ts).filter
        (fun e => goHasSuffix e.1 ".tool.plugin" && (e.2.2 &&& 0o111 != 0))).map
        (fun e => e.1) := by
  cases ts with
  | nil => simp [scanWalkChildren, fsFilesChildren]
  | cons c cs =>
    rw [scanWalkChildren, fsFilesChildren, List.filter_append, List.map_append,
      scanWalk_eq_filter (path ++ "/" ++ fsTreeName c) c,
      scanWalkChildren_eq_filter path cs]

end

/-! ### Demonstration fixtures for concrete counterexamples and witnesses -/

/-- Whether an `Except` is a success. -/
def exceptIsOk {ε α : Type} : Except ε α → Bool
  | Except.ok _ => true
  | Except.error _ => false

/-- A demonstration tool. -/
def demoTool : Tool :=
  { name := "t", description := "demo tool",
    inputSchema := { type := "object", properties := [], required := [] },
    rawInputSchema := "" }

/-- A demonstration plugin instance whose tool returns an empty result. -/
def demoInstance : PluginInstance :=
  { callTool := fun _ _ => Except.ok newCallToolResult }

/-- A demonstration `PluginInfo`. -/
def demoInfo : PluginInfo :=
  { name := "demo", version := "1.0.0", description := "", author := "" }

/-- The `LoadedPlugin` a fully successful load of
`plugins/demo.tool.plugin` builds. -/
def demoLoadedPlugin : LoadedPlugin :=
  { name := "demo", path := "plugins/demo.tool.plugin", inst := demoInstance,
    info := demoInfo, tools := [demoTool] }

/-- A manager with the demo plugin loaded and tool "t" indexed. -/
def demoManager : PluginManager :=
  { plugins := [("demo", demoLoadedPlugin)], toolMap := [("t", demoLoadedPlugin)] }

/-- A world in which every load step succeeds. -/
def demoWorld : PluginWorld :=
  { connect := Except.ok (), dispense := Except.ok demoInstance,
    getPluginInfo := Except.ok demoInfo, getTools := Except.ok [demoTool] }

/-! ### Claim C1 -/

/-- C1 counterexample: with the context already cancelled at entry,
`CallToolWithContext` on a manager holding tool "t" still starts the
dispatch goroutine and the plugin's `CallTool` IS invoked, refuting
"the plugin's CallTool is not invoked (the plugin is not touched)". -/
theorem C1_counterexample :
    ¬ ((pmCallToolWithContext demoManager true "t" []).pluginInvoked = false) := by
  intro h
  exact Bool.noConfusion
    (show true = false from h)

/-- C1 amended: with a context already cancelled at entry,
`CallToolWithContext` has the wrapped cancellation cause among its possible
returns, but the dispatch goroutine runs regardless, so the plugin's
`CallTool` is invoked exactly when the tool index resolves the name; the
pre-dispatch cancellation check belongs to `CallToolWithStructContext`,
which returns `ctx.Err()` without resolving or invoking the plugin. -/
theorem C1_amended (pm : PluginManager) (toolName : String)
    (params : List (String × JValue)) :
    Except.error (GoError.wrap "工具调用被取消" GoError.canceled)
        ∈ (pmCallToolWithContext pm true toolName params).possible ∧
    (pmCallToolWithContext pm true toolName params).pluginInvoked
        = (pmGetPluginByTool pm toolName).isSome ∧
    (pmCallToolWithStructContext pm true toolName params).result
        = Except.error GoError.canceled ∧
    (pmCallToolWithStructContext pm true toolName params).pluginInvoked = false := by
  refine ⟨?_, rfl, rfl, rfl⟩
  simp [pmCallToolWithContext]

/-! ### Claim C3 -/

/-- C3 counterexample: a fully successful `LoadPlugin` on an empty manager
returns the built plugin but inserts nothing into the manager — the derived
name resolves to nothing afterwards — refuting "inserts it into the manager
under its derived name". -/
theorem C3_counterexample :
    ¬ (∀ lp, (pmLoadPlugin newPluginManager demoWorld "plugins/demo.tool.plugin").result
          = Except.ok lp →
        pmGetPlugin (pmLoadPlugin newPluginManager demoWorld
          "plugins/demo.tool.plugin").mgrAfter lp.name = some lp) := by
  intro h
  have := h demoLoadedPlugin rfl
  exact Option.noConfusion
    (show (none : Option LoadedPlugin) = some demoLoadedPlugin from this)

theorem pmLoadPlugin_mgrAfter (pm : PluginManager) (w : PluginWorld) (path : String) :
    (pmLoadPlugin pm w path).mgrAfter = pm := by
  unfold pmLoadPlugin
  repeat' split
  all_goals rfl

theorem pmLoadPlugin_killed_of_error (pm : PluginManager) (w : PluginWorld)
    (path : String) (h : exceptIsOk (pmLoadPlugin pm w path).result = false) :
    (pmLoadPlugin pm w path).killed = true := by
  unfold pmLoadPlugin at h ⊢
  repeat' split at h
  all_goals first | rfl | exact Bool.noConfusion h

/-- C3 amended: `LoadPlugin` builds and returns the `LoadedPlugin` under its
derived name (the file stem) without modifying the manager; on any step
failure the child is killed and the manager is likewise untouched; the
insertion under the derived name is performed by `LoadAllPlugins` for each
successfully loaded plugin. -/
theorem C3_amended (pm : PluginManager) (w : PluginWorld) (path : String) :
    (pmLoadPlugin pm w path).mgrAfter = pm ∧
    (∀ inst pi ts, w.connect = Except.ok () → w.dispense = Except.ok inst →
      w.getPluginInfo = Except.ok pi → w.getTools = Except.ok ts →
      (pmLoadPlugin pm w path).result = Except.ok
        { name := fileStem path, path := path, inst := inst, info := pi, tools := ts } ∧
      (pmLoadPlugin pm w path).killed = false) ∧
    (exceptIsOk (pmLoadPlugin pm w path).result = false →
      (pmLoadPlugin pm w path).killed = true) ∧
    (∀ worlds p lp, (pmLoadPlugin pm (worlds p) p).result = Except.ok lp →
      alistGet (pmLoadLoop worlds [p] pm 0 0).1.plugins lp.name = some lp) := by
  refine ⟨pmLoadPlugin_mgrAfter pm w path, ?_, pmLoadPlugin_killed_of_error pm w path, ?_⟩
  · intro inst pi ts hc hd hi ht
    simp [pmLoadPlugin, hc, hd, hi, ht]
  · intro worlds p lp h
    simp only [pmLoadLoop, h]
    exact alistGet_set_eq _ _ _

/-- C3 witness: the amended statement evaluated on the demonstration world
and `plugins/demo.tool.plugin`: the load succeeds, builds the plugin under
the stem "demo", kills nothing, leaves the manager untouched, and the
`LoadAllPlugins` loop inserts it. -/
theorem C3_amended_witness :
    (pmLoadPlugin newPluginManager demoWorld "plugins/demo.tool.plugin").result
        = Except.ok demoLoadedPlugin ∧
    (pmLoadPlugin newPluginManager demoWorld "plugins/demo.tool.plugin").killed = false ∧
    (pmLoadPlugin newPluginManager demoWorld "plugins/demo.tool.plugin").mgrAfter
        = newPluginManager ∧
    alistGet (pmLoadLoop (fun _ => demoWorld) ["plugins/demo.tool.plugin"]
        newPluginManager 0 0).1.plugins "demo" = some demoLoadedPlugin := by
  obtain ⟨hmgr, hsucc, hkill0, hloop⟩ :=
    C3_amended newPluginManager demoWorld "plugins/demo.tool.plugin"
  obtain ⟨hres, hkill⟩ := hsucc demoInstance demoInfo [demoTool] rfl rfl rfl rfl
  have hstem : (pmLoadPlugin newPluginManager demoWorld "plugins/demo.tool.plugin").result
      = Except.ok demoLoadedPlugin := hres
  refine ⟨hstem, hkill, hmgr, ?_⟩
  have := hloop (fun _ => demoWorld) "plugins/demo.tool.plugin" demoLoadedPlugin hstem
  exact this

/-! ### Claim C4 -/

/-- C4 counterexample: on BadgerDB, `Expire` of the missing key "k" returns
badger's native `ErrKeyNotFound` untranslated, not the shared NotFound. -/
theorem C4_counterexample :
    ¬ ((badgerExpire [] "k" 5).1 = Except.error GoError.keyNotFound) := by
  intro h
  have h2 : Except.error GoError.badgerKeyNotFound
      = (Except.error GoError.keyNotFound : Except GoError Unit) := h
  exact GoError.noConfusion (Except.error.inj h2)

/-- C4 amended: on both local backends, `Get` translates the native
missing-key error into the shared NotFound, but `Expire` on a missing key
returns the backend's native error (`badger.ErrKeyNotFound` resp.
`buntdb.ErrNotFound`) untranslated. -/
theorem C4_amended (s : Store) (k : String) (ttl : Int) (h : alistGet s k = none) :
    badgerGet s k = Except.error GoError.keyNotFound ∧
    buntGet s k = Except.error GoError.keyNotFound ∧
    (badgerExpire s k ttl).1 = Except.error GoError.badgerKeyNotFound ∧
    (buntExpire s k ttl).1 = Except.error GoError.buntNotFound := by
  refine ⟨?_, ?_, ?_, ?_⟩ <;>
    simp [badgerGet, buntGet, buntTxGet, badgerExpire, buntExpire, h]

/-- C4 witness: the amended statement evaluated on the empty store at key
"k" with ttl 5. -/
theorem C4_amended_witness :
    alistGet ([] : Store) "k" = none ∧
    (badgerGet [] "k" = Except.error GoError.keyNotFound ∧
     buntGet [] "k" = Except.error GoError.keyNotFound ∧
     (badgerExpire [] "k" 5).1 = Except.error GoError.badgerKeyNotFound ∧
     (buntExpire [] "k" 5).1 = Except.error GoError.buntNotFound) :=
  ⟨rfl, C4_amended [] "k" 5 rfl⟩

/-! ### Claim C5 -/

/-- The discovery predicate exactly as the claim words it: regular files
whose path has the sentinel suffix and whose mode is executable by at least
the owner (bit 0o100). -/
def claimScanSet (path : String) (t : FsTree) : List String :=
  ((fsFiles path t).filter
    (fun e => e.2.1 && goHasSuffix e.1 ".tool.plugin" && (e.2.2 &&& 0o100 != 0))).map
    (fun e => e.1)

/-- A root holding one regular sentinel-named file whose only permission bit
is others-execute (mode 0o001). -/
def c5Tree : FsTree :=
  FsTree.dir "plugins" [FsTree.file "a.tool.plugin" true 0o001]

/-- C5 counterexample: the file with mode 0o001 is returned by ScanPlugins
(the code tests `mode&0111 != 0`) although it is not owner-executable, so
the "executable by at least the owner" characterisation is false. -/
theorem C5_counterexample :
    scanWalk "plugins" c5Tree ≠ claimScanSet "plugins" c5Tree := by
  decide

/-- C5 amended: ScanPlugins returns exactly the non-directory entries under
the root whose path ends in ".tool.plugin" and whose mode has any execute
bit set (owner, group or other) — not only owner-executable regular files —
in the deterministic lexical walk order (the result is a pure function of
the filesystem state). -/
theorem C5_amended (path : String) (t : FsTree) :
    scanWalk path t =
      ((fsFiles path t).filter
        (fun e => goHasSuffix e.1 ".tool.plugin" && (e.2.2 &&& 0o111 != 0))).map
        (fun e => e.1) :=
  scanWalk_eq_filter path t

/-! ### Claim C6 -/

/-- C6: on each registered backend (BadgerDB, BuntDB and Redis), starting
with the list key "q" absent, `RPush 1,2,3` gives `Len = 3`, `LPop = "1"`,
`PopAll = ["2","3"]`, then `Len = 0` and a further `LPop` is NotFound. -/
theorem C6_parity :
    badgerParityTrace =
      (Except.ok 3, Except.ok "1", Except.ok ["2", "3"], Except.ok 0,
        Except.error GoError.keyNotFound) ∧
    buntParityTrace =
      (Except.ok 3, Except.ok "1", Except.ok ["2", "3"], Except.ok 0,
        Except.error GoError.keyNotFound) ∧
    redisParityTrace =
      (Except.ok 3, Except.ok "1", Except.ok ["2", "3"], Except.ok 0,
        Except.error GoError.keyNotFound) :=
  ⟨rfl, rfl, rfl⟩

/-! ### Claim C7 -/

/-- C7: `NewErrorResult "x"` has the error flag set and exactly one content
item — a TextContent with body "x" and name "error" — and whenever a
plugin's tool logic fails, the RPC server encodes the failure as such a
result while the RPC call itself returns no error. -/
theorem C7_error_result :
    (newErrorResult "x").isError = true ∧
    (newErrorResult "x").content =
      [Content.text { type := "text", text := "x", name := "error" }] ∧
    (∀ impl : String → List (String × JValue) → Except GoError CallToolResult,
      ∀ args : CallToolArgs, ∀ err : GoError,
      impl args.toolName args.params = Except.error err →
      rpcServerCallTool impl args =
        (newErrorResult ("调用工具失败: " ++ goErrorString err), none)) := by
  refine ⟨rfl, rfl, ?_⟩
  intro impl args err h
  simp [rpcServerCallTool, h]

/-- C7 witness: the server-side encoding applied to a concrete failing
implementation. -/
theorem C7_witness :
    ((fun _ _ => Except.error (GoError.errMsg "boom") :
        String → List (String × JValue) → Except GoError CallToolResult)
      "t" []) = Except.error (GoError.errMsg "boom") ∧
    rpcServerCallTool (fun _ _ => Except.error (GoError.errMsg "boom"))
        { toolName := "t", params := [] } =
      (newErrorResult ("调用工具失败: " ++ goErrorString (GoError.errMsg "boom")), none) :=
  ⟨rfl, C7_error_result.2.2 (fun _ _ => Except.error (GoError.errMsg "boom"))
    { toolName := "t", params := [] } (GoError.errMsg "boom") rfl⟩

/-! ### Claim C8 -/

/-- C8: every tool built with `NewTool` over any option sequence has input
schema root type "object", and a `withType` property application whose
options contain `Required()` stores a property body without a "required"
entry and appends the property name to the schema's required list. -/
theorem C8_schema_builder (name description : String) (options : List ToolOpt)
    (propertyType pname : String) (popts : List PropOpt) (t : Tool)
    (h : PropOpt.required ∈ popts) :
    (newTool name description options).inputSchema.type = "object" ∧
    (withType propertyType pname popts t).inputSchema.required
        = t.inputSchema.required ++ [pname] ∧
    ∃ body : SMap,
      alistGet (withType propertyType pname popts t).inputSchema.properties pname
          = some (JValue.obj body) ∧
      alistGet body "required" = none := by
  obtain ⟨h1, h2⟩ := withType_required_spec propertyType pname popts t h
  exact ⟨foldl_applyToolOpt_type options _, h1, h2⟩

/-- C8 witness: the builder evaluated on a concrete tool with a required
string property "p". -/
theorem C8_witness :
    PropOpt.required ∈ [PropOpt.required] ∧
    ((newTool "echo" "d" []).inputSchema.type = "object" ∧
     (withType "string" "p" [PropOpt.required] (newTool "echo" "d" [])).inputSchema.required
        = (newTool "echo" "d" []).inputSchema.required ++ ["p"] ∧
     ∃ body : SMap,
       alistGet (withType "string" "p" [PropOpt.required]
           (newTool "echo" "d" [])).inputSchema.properties "p"
         = some (JValue.obj body) ∧
       alistGet body "required" = none) :=
  ⟨List.mem_singleton.mpr rfl,
   C8_schema_builder "echo" "d" [] "string" "p" [PropOpt.required]
     (newTool "echo" "d" []) (List.mem_singleton.mpr rfl)⟩

/-! ### Claim C9 -/

/-- C9 counterexample: `NewCallToolResult().SetError(true)` is produced
through the result-construction API, has the error flag set, and contains
no content at all — in particular no TextContent diagnostic. -/
theorem C9_counterexample :
    ¬ ((buildResult ResultStart.empty [ResultOp.setErr true]).isError = true →
        hasTextContent (buildResult ResultStart.empty [ResultOp.setErr true]) = true) := by
  decide

/-- C9 amended: every result whose construction starts from `NewErrorResult`
contains at least one TextContent item (its diagnostic) after any sequence
of API calls; the unrestricted invariant fails because `SetError(true)` can
flag a content-free result without adding a diagnostic. -/
theorem C9_amended (msg : String) (ops : List ResultOp) :
    hasTextContent (buildResult (ResultStart.errorResult msg) ops) = true :=
  hasTextContent_foldl ops _ rfl

/-! ### Claim C10 -/

/-- The hash view of the list key "q" after `RPush("q","v")` on a fresh
BadgerDB store. -/
def badgerHashListOverlap : List (String × String) :=
  badgerHGetAll (badgerRPush [] "q" "v").2 "q"

/-- C10: on BadgerDB, hash and list emulation share one flat namespace —
after `RPush("q","v")` from an empty store, `HGetAll("q")` is exactly the
mapping head↦"0", tail↦"1", "0"↦"v". -/
theorem C10_shared_namespace :
    alistGet badgerHashListOverlap "head" = some "0" ∧
    alistGet badgerHashListOverlap "tail" = some "1" ∧
    alistGet badgerHashListOverlap "0" = some "v" ∧
    badgerHashListOverlap.length = 3 :=
  ⟨rfl, rfl, rfl, rfl⟩

/-! ### The emulated-list representation invariant (claim C2) -/

/-- One mutating list operation of the cache contract. -/
inductive ListOp : Type
  | lpush (value : String)
  | rpush (value : String)
  | lpop
  | rpop
  | popAll

/-- Apply one operation on the BadgerDB backend, keeping only the store. -/
def badgerApplyOp (s : Store) (key : String) : ListOp → Store
  | ListOp.lpush v => (badgerLPush s key v).2
  | ListOp.rpush v => (badgerRPush s key v).2
  | ListOp.lpop => (badgerLPop s key).2
  | ListOp.rpop => (badgerRPop s key).2
  | ListOp.popAll => (badgerPopAll s key).2

/-- Run a sequence of list operations on a fresh BadgerDB store. -/
def badgerRunOps (key : String) (ops : List ListOp) : Store :=
  ops.foldl (fun s op => badgerApplyOp s key op) []

/-- Apply one operation on the BuntDB backend, keeping only the store. -/
def buntApplyOp (s : Store) (key : String) : ListOp → Store
  | ListOp.lpush v => (buntLPush s key v).2
  | ListOp.rpush v => (buntRPush s key v).2
  | ListOp.lpop => (buntLPop s key).2
  | ListOp.rpop => (buntRPop s key).2
  | ListOp.popAll => (buntPopAll s key).2

/-- Run a sequence of list operations on a fresh BuntDB store. -/
def buntRunOps (key : String) (ops : List ListOp) : Store :=
  ops.foldl (fun s op => buntApplyOp s key op) []

/-- The element key BadgerDB actually uses: `<key>:<i>`. -/
def badgerElemKey (key : String) (i : Int) : String :=
  key ++ ":" ++ goFormatInt i

/-- The element key BuntDB uses: `<key>:elem:<i>` (this is also the naming
the specification claims for both backends). -/
def buntElemKey (key : String) (i : Int) : String :=
  key ++ ":elem:" ++ goFormatInt i

theorem headKey_eq (key : String) : key ++ ":head" = (key ++ ":") ++ "head" := by
  rw [string_append_assoc]
  rfl

theorem tailKey_eq (key : String) : key ++ ":tail" = (key ++ ":") ++ "tail" := by
  rw [string_append_assoc]
  rfl

theorem headKey_ne_tailKey (key : String) : key ++ ":head" ≠ key ++ ":tail" :=
  key_suffix_ne key (by decide)

theorem badgerElemKey_ne_headKey (key : String) (i : Int) :
    badgerElemKey key i ≠ key ++ ":head" := by
  rw [headKey_eq]
  exact key_suffix_ne _ (goFormatInt_ne_head i)

theorem badgerElemKey_ne_tailKey (key : String) (i : Int) :
    badgerElemKey key i ≠ key ++ ":tail" := by
  rw [tailKey_eq]
  exact key_suffix_ne _ (goFormatInt_ne_tailstr i)

theorem badgerElemKey_inj {key : String} {i j : Int}
    (h : badgerElemKey key i = badgerElemKey key j) : i = j :=
  goFormatInt_inj (string_append_left_cancel h)

theorem key_colon_zero (key : String) : key ++ ":0" = badgerElemKey key 0 := by
  show key ++ ":0" = (key ++ ":") ++ goFormatInt 0
  rw [string_append_assoc]
  rfl

theorem buntElemKey_eq (key : String) (i : Int) :
    buntElemKey key i = (key ++ ":") ++ ("elem:" ++ goFormatInt i) := by
  show (key ++ ":elem:") ++ goFormatInt i = (key ++ ":") ++ ("elem:" ++ goFormatInt i)
  rw [← string_append_assoc]
  congr 1
  rw [string_append_assoc]
  rfl

theorem elemPre_ne_head (i : Int) : ("elem:" ++ goFormatInt i) ≠ "head" := by
  intro h
  have hd := congrArg String.data h
  rw [String.data_append] at hd
  have he : "elem:".data = ['e', 'l', 'e', 'm', ':'] := rfl
  have hh : "head".data = ['h', 'e', 'a', 'd'] := rfl
  rw [he, hh] at hd
  simp at hd

theorem elemPre_ne_tail (i : Int) : ("elem:" ++ goFormatInt i) ≠ "tail" := by
  intro h
  have hd := congrArg String.data h
  rw [String.data_append] at hd
  have he : "elem:".data = ['e', 'l', 'e', 'm', ':'] := rfl
  have hh : "tail".data = ['t', 'a', 'i', 'l'] := rfl
  rw [he, hh] at hd
  simp at hd

theorem buntElemKey_ne_headKey (key : String) (i : Int) :
    buntElemKey key i ≠ key ++ ":head" := by
  rw [buntElemKey_eq, headKey_eq]
  exact key_suffix_ne _ (elemPre_ne_head i)

theorem buntElemKey_ne_tailKey (key : String) (i : Int) :
    buntElemKey key i ≠ key ++ ":tail" := by
  rw [buntElemKey_eq, tailKey_eq]
  exact key_suffix_ne _ (elemPre_ne_tail i)

theorem buntElemKey_inj {key : String} {i j : Int}
    (h : buntElemKey key i = buntElemKey key j) : i = j := by
  rw [buntElemKey_eq, buntElemKey_eq] at h
  exact goFormatInt_inj (string_append_left_cancel (string_append_left_cancel h))

/-- The emulated-list representation invariant for a list key: either the
list is entirely absent (no bookkeeping keys, no element keys, length 0) or
`head ≤ tail` with both bookkeeping keys holding the decimal indices, the
reported length equal to `tail − head`, and an element entry existing under
`elemKey key i` exactly for `head ≤ i < tail`. -/
def listShapeInv (elemKey : String → Int → String)
    (lenFn : Store → String → Except GoError Int) (s : Store) (key : String) : Prop :=
  (alistGet s (key ++ ":head") = none ∧ alistGet s (key ++ ":tail") = none ∧
    lenFn s key = Except.ok 0 ∧
    ∀ i : Int, alistGet s (elemKey key i) = none) ∨
  (∃ h t : Int, h ≤ t ∧
    alistGet s (key ++ ":head") = some (goFormatInt h) ∧
    alistGet s (key ++ ":tail") = some (goFormatInt t) ∧
    lenFn s key = Except.ok (t - h) ∧
    ∀ i : Int, (alistGet s (elemKey key i)).isSome = true ↔ (h ≤ i ∧ i < t))

theorem badgerLen_absent {s : Store} {key : String}
    (hh : alistGet s (key ++ ":head") = none) : badgerLen s key = Except.ok 0 := by
  simp [badgerLen, badgerGet, hh]

theorem badgerLen_of_lookups {s : Store} {key : String} {h t : Int}
    (hh : alistGet s (key ++ ":head") = some (goFormatInt h))
    (ht : alistGet s (key ++ ":tail") = some (goFormatInt t)) :
    badgerLen s key = Except.ok (t - h) := by
  simp [badgerLen, badgerGet, hh, ht, goParseInt_goFormatInt]

theorem buntLen_absent {s : Store} {key : String}
    (hh : alistGet s (key ++ ":head") = none) : buntLen s key = Except.ok 0 := by
  simp [buntLen, buntTxGet, hh]

theorem buntLen_of_lookups {s : Store} {key : String} {h t : Int} (hle : h ≤ t)
    (hh : alistGet s (key ++ ":head") = some (goFormatInt h))
    (ht : alistGet s (key ++ ":tail") = some (goFormatInt t)) :
    buntLen s key = Except.ok (t - h) := by
  simp only [buntLen, buntTxGet, hh, ht, goParseInt_goFormatInt]
  by_cases hgt : t > h
  · simp [hgt]
  · have : t = h := by omega
    subst this
    simp

theorem badgerLPush_inv (s : Store) (key v : String)
    (hinv : listShapeInv badgerElemKey badgerLen s key) :
    listShapeInv badgerElemKey badgerLen (badgerLPush s key v).2 key := by
  cases hinv with
  | inl habs =>
    obtain ⟨hh, ht, _, he⟩ := habs
    have hget : badgerGet s (key ++ ":head") = Except.error GoError.keyNotFound := by
      simp [badgerGet, hh]
    have hs : (badgerLPush s key v).2 =
        alistSet (alistSet (alistSet s (key ++ ":head") "0") (key ++ ":tail") "1")
          (key ++ ":0") v := by
      simp [badgerLPush, hget, badgerSet]
    have hzh : key ++ ":head" ≠ key ++ ":0" := by
      rw [key_colon_zero]
      exact (badgerElemKey_ne_headKey key 0).symm
    have hzt : key ++ ":tail" ≠ key ++ ":0" := by
      rw [key_colon_zero]
      exact (badgerElemKey_ne_tailKey key 0).symm
    have hlh : alistGet (badgerLPush s key v).2 (key ++ ":head") = some (goFormatInt 0) := by
      rw [hs, alistGet_set_ne _ _ hzh, alistGet_set_ne _ _ (headKey_ne_tailKey key),
        alistGet_set_eq]
      rfl
    have hlt : alistGet (badgerLPush s key v).2 (key ++ ":tail") = some (goFormatInt 1) := by
      rw [hs, alistGet_set_ne _ _ hzt, alistGet_set_eq]
      rfl
    right
    refine ⟨0, 1, by omega, hlh, hlt, ?_, ?_⟩
    · rw [badgerLen_of_lookups hlh hlt]
    · intro i
      by_cases hi : i = 0
      · subst hi
        rw [hs, ← key_colon_zero, alistGet_set_eq]
        simp
      · have h1 : badgerElemKey key i ≠ key ++ ":0" := by
          rw [key_colon_zero]
          exact fun hq => hi (badgerElemKey_inj hq)
        rw [hs, alistGet_set_ne _ _ h1,
          alistGet_set_ne _ _ (badgerElemKey_ne_tailKey key i),
          alistGet_set_ne _ _ (badgerElemKey_ne_headKey key i), he i]
        simp
        omega
  | inr hpres =>
    obtain ⟨h, t, hle, hh, ht, _, he⟩ := hpres
    have hget : badgerGet s (key ++ ":head") = Except.ok (goFormatInt h) := by
      simp [badgerGet, hh]
    have hs : (badgerLPush s key v).2 =
        alistSet (alistSet s (key ++ ":" ++ goFormatInt (h - 1)) v)
          (key ++ ":head") (goFormatInt (h - 1)) := by
      simp [badgerLPush, hget, goParseInt_goFormatInt, badgerSet]
    have hek : key ++ ":" ++ goFormatInt (h - 1) = badgerElemKey key (h - 1) := rfl
    have hlh : alistGet (badgerLPush s key v).2 (key ++ ":head")
        = some (goFormatInt (h - 1)) := by
      rw [hs, alistGet_set_eq]
    have hlt : alistGet (badgerLPush s key v).2 (key ++ ":tail")
        = some (goFormatInt t) := by
      rw [hs, alistGet_set_ne _ _ (headKey_ne_tailKey key).symm, hek,
        alistGet_set_ne _ _ (badgerElemKey_ne_tailKey key (h - 1)).symm, ht]
    right
    refine ⟨h - 1, t, by omega, hlh, hlt, ?_, ?_⟩
    · rw [badgerLen_of_lookups hlh hlt]
    · intro i
      by_cases hi : i = h - 1
      · subst hi
        rw [hs, hek, alistGet_set_ne _ _ (badgerElemKey_ne_headKey key (h - 1)),
          alistGet_set_eq]
        simp
        omega
      · have h1 : badgerElemKey key i ≠ badgerElemKey key (h - 1) :=
          fun hq => hi (badgerElemKey_inj hq)
        rw [hs, hek, alistGet_set_ne _ _ (badgerElemKey_ne_headKey key i),
          alistGet_set_ne _ _ h1, he i]
        omega

theorem badgerRPush_inv (s : Store) (key v : String)
    (hinv : listShapeInv badgerElemKey badgerLen s key) :
    listShapeInv badgerElemKey badgerLen (badgerRPush s key v).2 key := by
  cases hinv with
  | inl habs =>
    obtain ⟨hh, ht, _, he⟩ := habs
    have hget : badgerGet s (key ++ ":tail") = Except.error GoError.keyNotFound := by
      simp [badgerGet, ht]
    have hs : (badgerRPush s key v).2 =
        alistSet (alistSet (alistSet s (key ++ ":head") "0") (key ++ ":tail") "1")
          (key ++ ":0") v := by
      simp [badgerRPush, hget, badgerSet]
    have hzh : key ++ ":head" ≠ key ++ ":0" := by
      rw [key_colon_zero]
      exact (badgerElemKey_ne_headKey key 0).symm
    have hzt : key ++ ":tail" ≠ key ++ ":0" := by
      rw [key_colon_zero]
      exact (badgerElemKey_ne_tailKey key 0).symm
    have hlh : alistGet (badgerRPush s key v).2 (key ++ ":head") = some (goFormatInt 0) := by
      rw [hs, alistGet_set_ne _ _ hzh, alistGet_set_ne _ _ (headKey_ne_tailKey key),
        alistGet_set_eq]
      rfl
    have hlt : alistGet (badgerRPush s key v).2 (key ++ ":tail") = some (goFormatInt 1) := by
      rw [hs, alistGet_set_ne _ _ hzt, alistGet_set_eq]
      rfl
    right
    refine ⟨0, 1, by omega, hlh, hlt, ?_, ?_⟩
    · rw [badgerLen_of_lookups hlh hlt]
    · intro i
      by_cases hi : i = 0
      · subst hi
        rw [hs, ← key_colon_zero, alistGet_set_eq]
        simp
      · have h1 : badgerElemKey key i ≠ key ++ ":0" := by
          rw [key_colon_zero]
          exact fun hq => hi (badgerElemKey_inj hq)
        rw [hs, alistGet_set_ne _ _ h1,
          alistGet_set_ne _ _ (badgerElemKey_ne_tailKey key i),
          alistGet_set_ne _ _ (badgerElemKey_ne_headKey key i), he i]
        simp
        omega
  | inr hpres =>
    obtain ⟨h, t, hle, hh, ht, _, he⟩ := hpres
    have hget : badgerGet s (key ++ ":tail") = Except.ok (goFormatInt t) := by
      simp [badgerGet, ht]
    have hs : (badgerRPush s key v).2 =
        alistSet (alistSet s (key ++ ":" ++ goFormatInt t) v)
          (key ++ ":tail") (goFormatInt (t + 1)) := by
      simp [badgerRPush, hget, goParseInt_goFormatInt, badgerSet]
    have hek : key ++ ":" ++ goFormatInt t = badgerElemKey key t := rfl
    have hlh : alistGet (badgerRPush s key v).2 (key ++ ":head")
        = some (goFormatInt h) := by
      rw [hs, alistGet_set_ne _ _ (headKey_ne_tailKey key), hek,
        alistGet_set_ne _ _ (badgerElemKey_ne_headKey key t).symm, hh]
    have hlt : alistGet (badgerRPush s key v).2 (key ++ ":tail")
        = some (goFormatInt (t + 1)) := by
      rw [hs, alistGet_set_eq]
    right
    refine ⟨h, t + 1, by omega, hlh, hlt, ?_, ?_⟩
    · rw [badgerLen_of_lookups hlh hlt]
    · intro i
      by_cases hi : i = t
      · subst hi
        rw [hs, hek, alistGet_set_ne _ _ (badgerElemKey_ne_tailKey key i),
          alistGet_set_eq]
        simp
        omega
      · have h1 : badgerElemKey key i ≠ badgerElemKey key t :=
          fun hq => hi (badgerElemKey_inj hq)
        rw [hs, hek, alistGet_set_ne _ _ (badgerElemKey_ne_tailKey key i),
          alistGet_set_ne _ _ h1, he i]
        omega

theorem badgerLPop_inv (s : Store) (key : String)
    (hinv : listShapeInv badgerElemKey badgerLen s key) :
    listShapeInv badgerElemKey badgerLen (badgerLPop s key).2 key := by
  cases hinv with
  | inl habs =>
    obtain ⟨hh, ht, hlen, he⟩ := habs
    have hget : badgerGet s (key ++ ":head") = Except.error GoError.keyNotFound := by
      simp [badgerGet, hh]
    have hs : (badgerLPop s key).2 = s := by
      simp [badgerLPop, hget]
    rw [hs]
    exact Or.inl ⟨hh, ht, hlen, he⟩
  | inr hpres =>
    obtain ⟨h, t, hle, hh, ht, hlen, he⟩ := hpres
    have hgetH : badgerGet s (key ++ ":head") = Except.ok (goFormatInt h) := by
      simp [badgerGet, hh]
    have hgetT : badgerGet s (key ++ ":tail") = Except.ok (goFormatInt t) := by
      simp [badgerGet, ht]
    by_cases hempty : h ≥ t
    · have hs : (badgerLPop s key).2 = s := by
        simp [badgerLPop, hgetH, hgetT, goParseInt_goFormatInt, hempty]
      rw [hs]
      exact Or.inr ⟨h, t, hle, hh, ht, hlen, he⟩
    · have hlt : h < t := by omega
      obtain ⟨v, hv⟩ := Option.isSome_iff_exists.mp ((he h).mpr ⟨le_refl h, hlt⟩)
      have hek : key ++ ":" ++ goFormatInt h = badgerElemKey key h := rfl
      have hgetE : badgerGet s (key ++ ":" ++ goFormatInt h) = Except.ok v := by
        show badgerGet s (badgerElemKey key h) = Except.ok v
        simp [badgerGet, hv]
      have hs : (badgerLPop s key).2 =
          alistSet (alistDel s (key ++ ":" ++ goFormatInt h))
            (key ++ ":head") (goFormatInt (h + 1)) := by
        simp [badgerLPop, hgetH, hgetT, goParseInt_goFormatInt, hempty, hgetE,
          badgerDelete, badgerSet]
      have hlh : alistGet (badgerLPop s key).2 (key ++ ":head")
          = some (goFormatInt (h + 1)) := by
        rw [hs, alistGet_set_eq]
      have hlt2 : alistGet (badgerLPop s key).2 (key ++ ":tail")
          = some (goFormatInt t) := by
        rw [hs, alistGet_set_ne _ _ (headKey_ne_tailKey key).symm, hek,
          alistGet_del_ne _ (badgerElemKey_ne_tailKey key h).symm, ht]
      right
      refine ⟨h + 1, t, by omega, hlh, hlt2, ?_, ?_⟩
      · rw [badgerLen_of_lookups hlh hlt2]
      · intro i
        by_cases hi : i = h
        · rw [hi, hs, hek, alistGet_set_ne _ _ (badgerElemKey_ne_headKey key h),
            alistGet_del_eq]
          simp
        · have h1 : badgerElemKey key i ≠ badgerElemKey key h :=
            fun hq => hi (badgerElemKey_inj hq)
          rw [hs, hek, alistGet_set_ne _ _ (badgerElemKey_ne_headKey key i),
            alistGet_del_ne _ h1, he i]
          omega

theorem badgerRPop_inv (s : Store) (key : String)
    (hinv : listShapeInv badgerElemKey badgerLen s key) :
    listShapeInv badgerElemKey badgerLen (badgerRPop s key).2 key := by
  cases hinv with
  | inl habs =>
    obtain ⟨hh, ht, hlen, he⟩ := habs
    have hget : badgerGet s (key ++ ":head") = Except.error GoError.keyNotFound := by
      simp [badgerGet, hh]
    have hs : (badgerRPop s key).2 = s := by
      simp [badgerRPop, hget]
    rw [hs]
    exact Or.inl ⟨hh, ht, hlen, he⟩
  | inr hpres =>
    obtain ⟨h, t, hle, hh, ht, hlen, he⟩ := hpres
    have hgetH : badgerGet s (key ++ ":head") = Except.ok (goFormatInt h) := by
      simp [badgerGet, hh]
    have hgetT : badgerGet s (key ++ ":tail") = Except.ok (goFormatInt t) := by
      simp [badgerGet, ht]
    by_cases hempty : h ≥ t
    · have hs : (badgerRPop s key).2 = s := by
        simp [badgerRPop, hgetH, hgetT, goParseInt_goFormatInt, hempty]
      rw [hs]
      exact Or.inr ⟨h, t, hle, hh, ht, hlen, he⟩
    · have hlt : h < t := by omega
      obtain ⟨v, hv⟩ := Option.isSome_iff_exists.mp ((he (t - 1)).mpr ⟨by omega, by omega⟩)
      have hek : key ++ ":" ++ goFormatInt (t - 1) = badgerElemKey key (t - 1) := rfl
      have hgetE : badgerGet s (key ++ ":" ++ goFormatInt (t - 1)) = Except.ok v := by
        show badgerGet s (badgerElemKey key (t - 1)) = Except.ok v
        simp [badgerGet, hv]
      have hs : (badgerRPop s key).2 =
          alistSet (alistDel s (key ++ ":" ++ goFormatInt (t - 1)))
            (key ++ ":tail") (goFormatInt (t - 1)) := by
        simp [badgerRPop, hgetH, hgetT, goParseInt_goFormatInt, hempty, hgetE,
          badgerDelete, badgerSet]
      have hlt2 : alistGet (badgerRPop s key).2 (key ++ ":tail")
          = some (goFormatInt (t - 1)) := by
        rw [hs, alistGet_set_eq]
      have hlh : alistGet (badgerRPop s key).2 (key ++ ":head")
          = some (goFormatInt h) := by
        rw [hs, alistGet_set_ne _ _ (headKey_ne_tailKey key), hek,
          alistGet_del_ne _ (badgerElemKey_ne_headKey key (t - 1)).symm, hh]
      right
      refine ⟨h, t - 1, by omega, hlh, hlt2, ?_, ?_⟩
      · rw [badgerLen_of_lookups hlh hlt2]
      · intro i
        by_cases hi : i = t - 1
        · rw [hi, hs, hek, alistGet_set_ne _ _ (badgerElemKey_ne_tailKey key (t - 1)),
            alistGet_del_eq]
          simp
        · have h1 : badgerElemKey key i ≠ badgerElemKey key (t - 1) :=
            fun hq => hi (badgerElemKey_inj hq)
          rw [hs, hek, alistGet_set_ne _ _ (badgerElemKey_ne_tailKey key i),
            alistGet_del_ne _ h1, he i]
          omega

theorem badgerPopAllLoop_lookup (key : String) (n : Nat) :
    ∀ (i : Int) (s : Store) (acc : List String) (k' : String),
      ((∃ j : Int, i ≤ j ∧ j < i + n ∧ k' = badgerElemKey key j) →
        alistGet (badgerPopAllLoop key n i s acc).2 k' = none) ∧
      ((∀ j : Int, i ≤ j → j < i + n → k' ≠ badgerElemKey key j) →
        alistGet (badgerPopAllLoop key n i s acc).2 k' = alistGet s k') := by
  induction n with
  | zero =>
    intro i s acc k'
    constructor
    · rintro ⟨j, hj1, hj2, -⟩
      exfalso
      omega
    · intro _
      rfl
  | succ n ih =>
    intro i s acc k'
    cases hget : badgerGet s (key ++ ":" ++ goFormatInt i) with
    | error e =>
      have hnone : alistGet s (key ++ ":" ++ goFormatInt i) = none := by
        cases hx : alistGet s (key ++ ":" ++ goFormatInt i) with
        | none => rfl
        | some v =>
          rw [show badgerGet s (key ++ ":" ++ goFormatInt i) = Except.ok v by
            simp [badgerGet, hx]] at hget
          exact Except.noConfusion hget
      have hstep : badgerPopAllLoop key (n + 1) i s acc
          = badgerPopAllLoop key n (i + 1) s acc := by
        simp [badgerPopAllLoop, hget]
      constructor
      · rintro ⟨j, hj1, hj2, hk⟩
        rw [hstep]
        by_cases hji : j = i
        · rw [(ih (i + 1) s acc k').2 ?_]
          · rw [hk, hji]
            exact hnone
          · intro j' h1 h2 hq
            rw [hk, hji] at hq
            exact (by omega : ¬ (i = j')) (badgerElemKey_inj hq)
        · exact (ih (i + 1) s acc k').1 ⟨j, by omega, by omega, hk⟩
      · intro hall
        rw [hstep]
        exact (ih (i + 1) s acc k').2 (fun j h1 h2 => hall j (by omega) (by omega))
    | ok v =>
      have hstep : badgerPopAllLoop key (n + 1) i s acc
          = badgerPopAllLoop key n (i + 1)
              (alistDel s (key ++ ":" ++ goFormatInt i)) (acc ++ [v]) := by
        simp [badgerPopAllLoop, hget, badgerDelete]
      have hek : key ++ ":" ++ goFormatInt i = badgerElemKey key i := rfl
      constructor
      · rintro ⟨j, hj1, hj2, hk⟩
        rw [hstep]
        by_cases hji : j = i
        · rw [(ih (i + 1) _ _ k').2 ?_]
          · rw [hk, hji, hek, alistGet_del_eq]
          · intro j' h1 h2 hq
            rw [hk, hji] at hq
            exact (by omega : ¬ (i = j')) (badgerElemKey_inj hq)
        · exact (ih (i + 1) _ _ k').1 ⟨j, by omega, by omega, hk⟩
      · intro hall
        rw [hstep]
        rw [(ih (i + 1) _ _ k').2 (fun j h1 h2 => hall j (by omega) (by omega))]
        rw [hek, alistGet_del_ne _ (hall i (le_refl i) (by omega))]

theorem badgerPopAll_inv (s : Store) (key : String)
    (hinv : listShapeInv badgerElemKey badgerLen s key) :
    listShapeInv badgerElemKey badgerLen (badgerPopAll s key).2 key := by
  cases hinv with
  | inl habs =>
    obtain ⟨hh, ht, hlen, he⟩ := habs
    have hget : badgerGet s (key ++ ":head") = Except.error GoError.keyNotFound := by
      simp [badgerGet, hh]
    have hs : (badgerPopAll s key).2 = s := by
      simp [badgerPopAll, hget]
    rw [hs]
    exact Or.inl ⟨hh, ht, hlen, he⟩
  | inr hpres =>
    obtain ⟨h, t, hle, hh, ht, hlen, he⟩ := hpres
    have hgetH : badgerGet s (key ++ ":head") = Except.ok (goFormatInt h) := by
      simp [badgerGet, hh]
    have hgetT : badgerGet s (key ++ ":tail") = Except.ok (goFormatInt t) := by
      simp [badgerGet, ht]
    by_cases hempty : h ≥ t
    · have hs : (badgerPopAll s key).2 = s := by
        simp [badgerPopAll, hgetH, hgetT, goParseInt_goFormatInt, hempty]
      rw [hs]
      exact Or.inr ⟨h, t, hle, hh, ht, hlen, he⟩
    · have hcast : ((t - h).toNat : Int) = t - h := Int.toNat_of_nonneg (by omega)
      have hs : (badgerPopAll s key).2 =
          alistDel (alistDel (badgerPopAllLoop key (t - h).toNat h s []).2
            (key ++ ":head")) (key ++ ":tail") := by
        simp [badgerPopAll, hgetH, hgetT, goParseInt_goFormatInt, hempty, badgerDelete]
      have hlh : alistGet (badgerPopAll s key).2 (key ++ ":head") = none := by
        rw [hs, alistGet_del_ne _ (headKey_ne_tailKey key), alistGet_del_eq]
      have hlt : alistGet (badgerPopAll s key).2 (key ++ ":tail") = none := by
        rw [hs, alistGet_del_eq]
      left
      refine ⟨hlh, hlt, badgerLen_absent hlh, ?_⟩
      intro i
      rw [hs, alistGet_del_ne _ (badgerElemKey_ne_tailKey key i),
        alistGet_del_ne _ (badgerElemKey_ne_headKey key i)]
      by_cases hin : h ≤ i ∧ i < t
      · exact (badgerPopAllLoop_lookup key (t - h).toNat h s [] _).1
          ⟨i, hin.1, by omega, rfl⟩
      · rw [(badgerPopAllLoop_lookup key (t - h).toNat h s [] _).2 ?_]
        · cases hx : alistGet s (badgerElemKey key i) with
          | none => rfl
          | some v =>
            exfalso
            exact hin ((he i).mp (by rw [hx]; rfl))
        · intro j h1 h2 hq
          exact hin (by rw [badgerElemKey_inj hq]; omega)

theorem buntLPush_inv (s : Store) (key v : String)
    (hinv : listShapeInv buntElemKey buntLen s key) :
    listShapeInv buntElemKey buntLen (buntLPush s key v).2 key := by
  cases hinv with
  | inl habs =>
    obtain ⟨hh, ht, _, he⟩ := habs
    have hGetH : buntTxGet s (key ++ ":head") = Except.error GoError.buntNotFound := by
      simp [buntTxGet, hh]
    have hGetT : buntTxGet s (key ++ ":tail") = Except.error GoError.buntNotFound := by
      simp [buntTxGet, ht]
    have hs : (buntLPush s key v).2 =
        alistSet (alistSet (alistSet s (key ++ ":elem:" ++ goFormatInt (0 - 1)) v)
          (key ++ ":head") (goFormatInt (0 - 1))) (key ++ ":tail") (goFormatInt 0) := by
      simp [buntLPush, hGetH, hGetT, buntTxSet]
    have hz : ((0 : Int) - 1) = -1 := by norm_num
    rw [hz] at hs
    rw [show key ++ ":elem:" ++ goFormatInt (-1) = buntElemKey key (-1) from rfl] at hs
    have hlh : alistGet (buntLPush s key v).2 (key ++ ":head")
        = some (goFormatInt (-1)) := by
      rw [hs, alistGet_set_ne _ _ (headKey_ne_tailKey key), alistGet_set_eq]
    have hlt : alistGet (buntLPush s key v).2 (key ++ ":tail")
        = some (goFormatInt 0) := by
      rw [hs, alistGet_set_eq]
    right
    refine ⟨-1, 0, by omega, hlh, hlt, ?_, ?_⟩
    · rw [buntLen_of_lookups (by omega) hlh hlt]
    · intro i
      by_cases hi : i = -1
      · rw [hi, hs, alistGet_set_ne _ _ (buntElemKey_ne_tailKey key (-1)),
          alistGet_set_ne _ _ (buntElemKey_ne_headKey key (-1)), alistGet_set_eq]
        simp <;> omega
      · have h1 : buntElemKey key i ≠ buntElemKey key (-1) :=
          fun hq => hi (buntElemKey_inj hq)
        rw [hs, alistGet_set_ne _ _ (buntElemKey_ne_tailKey key i),
          alistGet_set_ne _ _ (buntElemKey_ne_headKey key i),
          alistGet_set_ne _ _ h1, he i]
        simp <;> omega
  | inr hpres =>
    obtain ⟨h, t, hle, hh, ht, _, he⟩ := hpres
    have hGetH : buntTxGet s (key ++ ":head") = Except.ok (goFormatInt h) := by
      simp [buntTxGet, hh]
    have hGetT : buntTxGet s (key ++ ":tail") = Except.ok (goFormatInt t) := by
      simp [buntTxGet, ht]
    by_cases hcond : h - 1 = t - 1
    · have hs : (buntLPush s key v).2 =
          alistSet (alistSet (alistSet s (key ++ ":elem:" ++ goFormatInt (h - 1)) v)
            (key ++ ":head") (goFormatInt (h - 1))) (key ++ ":tail") (goFormatInt t) := by
        simp [buntLPush, hGetH, hGetT, goParseInt_goFormatInt, buntTxSet, hcond]
      rw [show key ++ ":elem:" ++ goFormatInt (h - 1) = buntElemKey key (h - 1) from rfl] at hs
      have hlh : alistGet (buntLPush s key v).2 (key ++ ":head")
          = some (goFormatInt (h - 1)) := by
        rw [hs, alistGet_set_ne _ _ (headKey_ne_tailKey key), alistGet_set_eq]
      have hlt : alistGet (buntLPush s key v).2 (key ++ ":tail")
          = some (goFormatInt t) := by
        rw [hs, alistGet_set_eq]
      right
      refine ⟨h - 1, t, by omega, hlh, hlt, ?_, ?_⟩
      · rw [buntLen_of_lookups (by omega) hlh hlt]
      · intro i
        by_cases hi : i = h - 1
        · rw [hi, hs, alistGet_set_ne _ _ (buntElemKey_ne_tailKey key (h - 1)),
            alistGet_set_ne _ _ (buntElemKey_ne_headKey key (h - 1)), alistGet_set_eq]
          simp <;> omega
        · have h1 : buntElemKey key i ≠ buntElemKey key (h - 1) :=
            fun hq => hi (buntElemKey_inj hq)
          rw [hs, alistGet_set_ne _ _ (buntElemKey_ne_tailKey key i),
            alistGet_set_ne _ _ (buntElemKey_ne_headKey key i),
            alistGet_set_ne _ _ h1, he i]
          omega
    · have hs : (buntLPush s key v).2 =
          alistSet (alistSet s (key ++ ":elem:" ++ goFormatInt (h - 1)) v)
            (key ++ ":head") (goFormatInt (h - 1)) := by
        simp [buntLPush, hGetH, hGetT, goParseInt_goFormatInt, buntTxSet, hcond]
      rw [show key ++ ":elem:" ++ goFormatInt (h - 1) = buntElemKey key (h - 1) from rfl] at hs
      have hlh : alistGet (buntLPush s key v).2 (key ++ ":head")
          = some (goFormatInt (h - 1)) := by
        rw [hs, alistGet_set_eq]
      have hlt : alistGet (buntLPush s key v).2 (key ++ ":tail")
          = some (goFormatInt t) := by
        rw [hs, alistGet_set_ne _ _ (headKey_ne_tailKey key).symm,
          alistGet_set_ne _ _ (buntElemKey_ne_tailKey key (h - 1)).symm, ht]
      right
      refine ⟨h - 1, t, by omega, hlh, hlt, ?_, ?_⟩
      · rw [buntLen_of_lookups (by omega) hlh hlt]
      · intro i
        by_cases hi : i = h - 1
        · rw [hi, hs, alistGet_set_ne _ _ (buntElemKey_ne_headKey key (h - 1)),
            alistGet_set_eq]
          simp <;> omega
        · have h1 : buntElemKey key i ≠ buntElemKey key (h - 1) :=
            fun hq => hi (buntElemKey_inj hq)
          rw [hs, alistGet_set_ne _ _ (buntElemKey_ne_headKey key i),
            alistGet_set_ne _ _ h1, he i]
          omega

theorem buntRPush_inv (s : Store) (key v : String)
    (hinv : listShapeInv buntElemKey buntLen s key) :
    listShapeInv buntElemKey buntLen (buntRPush s key v).2 key := by
  cases hinv with
  | inl habs =>
    obtain ⟨hh, ht, _, he⟩ := habs
    have hGetH : buntTxGet s (key ++ ":head") = Except.error GoError.buntNotFound := by
      simp [buntTxGet, hh]
    have hGetT : buntTxGet s (key ++ ":tail") = Except.error GoError.buntNotFound := by
      simp [buntTxGet, ht]
    have hs : (buntRPush s key v).2 =
        alistSet (alistSet (alistSet s (key ++ ":elem:" ++ goFormatInt 0) v)
          (key ++ ":tail") (goFormatInt (0 + 1))) (key ++ ":head") (goFormatInt 0) := by
      simp [buntRPush, hGetH, hGetT, buntTxSet]
    rw [show key ++ ":elem:" ++ goFormatInt 0 = buntElemKey key 0 from rfl,
      show ((0 : Int) + 1) = 1 from rfl] at hs
    have hlh : alistGet (buntRPush s key v).2 (key ++ ":head")
        = some (goFormatInt 0) := by
      rw [hs, alistGet_set_eq]
    have hlt : alistGet (buntRPush s key v).2 (key ++ ":tail")
        = some (goFormatInt 1) := by
      rw [hs, alistGet_set_ne _ _ (headKey_ne_tailKey key).symm, alistGet_set_eq]
    right
    refine ⟨0, 1, by omega, hlh, hlt, ?_, ?_⟩
    · rw [buntLen_of_lookups (by omega) hlh hlt]
    · intro i
      by_cases hi : i = 0
      · rw [hi, hs, alistGet_set_ne _ _ (buntElemKey_ne_headKey key 0),
          alistGet_set_ne _ _ (buntElemKey_ne_tailKey key 0), alistGet_set_eq]
        simp
      · have h1 : buntElemKey key i ≠ buntElemKey key 0 :=
          fun hq => hi (buntElemKey_inj hq)
        rw [hs, alistGet_set_ne _ _ (buntElemKey_ne_headKey key i),
          alistGet_set_ne _ _ (buntElemKey_ne_tailKey key i),
          alistGet_set_ne _ _ h1, he i]
        simp
        omega
  | inr hpres =>
    obtain ⟨h, t, hle, hh, ht, _, he⟩ := hpres
    have hGetH : buntTxGet s (key ++ ":head") = Except.ok (goFormatInt h) := by
      simp [buntTxGet, hh]
    have hGetT : buntTxGet s (key ++ ":tail") = Except.ok (goFormatInt t) := by
      simp [buntTxGet, ht]
    by_cases hcond : t = h
    · have hs : (buntRPush s key v).2 =
          alistSet (alistSet (alistSet s (key ++ ":elem:" ++ goFormatInt t) v)
            (key ++ ":tail") (goFormatInt (t + 1))) (key ++ ":head") (goFormatInt h) := by
        simp [buntRPush, hGetH, hGetT, goParseInt_goFormatInt, buntTxSet, hcond]
      rw [show key ++ ":elem:" ++ goFormatInt t = buntElemKey key t from rfl] at hs
      have hlh : alistGet (buntRPush s key v).2 (key ++ ":head")
          = some (goFormatInt h) := by
        rw [hs, alistGet_set_eq]
      have hlt : alistGet (buntRPush s key v).2 (key ++ ":tail")
          = some (goFormatInt (t + 1)) := by
        rw [hs, alistGet_set_ne _ _ (headKey_ne_tailKey key).symm, alistGet_set_eq]
      right
      refine ⟨h, t + 1, by omega, hlh, hlt, ?_, ?_⟩
      · rw [buntLen_of_lookups (by omega) hlh hlt]
      · intro i
        by_cases hi : i = t
        · rw [hi, hs, alistGet_set_ne _ _ (buntElemKey_ne_headKey key t),
            alistGet_set_ne _ _ (buntElemKey_ne_tailKey key t), alistGet_set_eq]
          simp
          omega
        · have h1 : buntElemKey key i ≠ buntElemKey key t :=
            fun hq => hi (buntElemKey_inj hq)
          rw [hs, alistGet_set_ne _ _ (buntElemKey_ne_headKey key i),
            alistGet_set_ne _ _ (buntElemKey_ne_tailKey key i),
            alistGet_set_ne _ _ h1, he i]
          omega
    · have hs : (buntRPush s key v).2 =
          alistSet (alistSet s (key ++ ":elem:" ++ goFormatInt t) v)
            (key ++ ":tail") (goFormatInt (t + 1)) := by
        simp [buntRPush, hGetH, hGetT, goParseInt_goFormatInt, buntTxSet, hcond]
      rw [show key ++ ":elem:" ++ goFormatInt t = buntElemKey key t from rfl] at hs
      have hlh : alistGet (buntRPush s key v).2 (key ++ ":head")
          = some (goFormatInt h) := by
        rw [hs, alistGet_set_ne _ _ (headKey_ne_tailKey key),
          alistGet_set_ne _ _ (buntElemKey_ne_headKey key t).symm, hh]
      have hlt : alistGet (buntRPush s key v).2 (key ++ ":tail")
          = some (goFormatInt (t + 1)) := by
        rw [hs, alistGet_set_eq]
      right
      refine ⟨h, t + 1, by omega, hlh, hlt, ?_, ?_⟩
      · rw [buntLen_of_lookups (by omega) hlh hlt]
      · intro i
        by_cases hi : i = t
        · rw [hi, hs, alistGet_set_ne _ _ (buntElemKey_ne_tailKey key t),
            alistGet_set_eq]
          simp
          omega
        · have h1 : buntElemKey key i ≠ buntElemKey key t :=
            fun hq => hi (buntElemKey_inj hq)
          rw [hs, alistGet_set_ne _ _ (buntElemKey_ne_tailKey key i),
            alistGet_set_ne _ _ h1, he i]
          omega

theorem buntLPop_inv (s : Store) (key : String)
    (hinv : listShapeInv buntElemKey buntLen s key) :
    listShapeInv buntElemKey buntLen (buntLPop s key).2 key := by
  cases hinv with
  | inl habs =>
    obtain ⟨hh, ht, hlen, he⟩ := habs
    have hGetH : buntTxGet s (key ++ ":head") = Except.error GoError.buntNotFound := by
      simp [buntTxGet, hh]
    have hs : (buntLPop s key).2 = s := by
      simp [buntLPop, buntLPopBody, hGetH]
    rw [hs]
    exact Or.inl ⟨hh, ht, hlen, he⟩
  | inr hpres =>
    obtain ⟨h, t, hle, hh, ht, hlen, he⟩ := hpres
    have hGetH : buntTxGet s (key ++ ":head") = Except.ok (goFormatInt h) := by
      simp [buntTxGet, hh]
    have hGetT : buntTxGet s (key ++ ":tail") = Except.ok (goFormatInt t) := by
      simp [buntTxGet, ht]
    by_cases hempty : h ≥ t
    · have hs : (buntLPop s key).2 = s := by
        simp [buntLPop, buntLPopBody, hGetH, hGetT, goParseInt_goFormatInt, hempty]
      rw [hs]
      exact Or.inr ⟨h, t, hle, hh, ht, hlen, he⟩
    · have hlt : h < t := by omega
      obtain ⟨v, hv⟩ := Option.isSome_iff_exists.mp ((he h).mpr ⟨le_refl h, hlt⟩)
      have hGetE : buntTxGet s (key ++ ":elem:" ++ goFormatInt h) = Except.ok v := by
        show buntTxGet s (buntElemKey key h) = Except.ok v
        simp [buntTxGet, hv]
      have hDelE : buntTxDelete s (key ++ ":elem:" ++ goFormatInt h)
          = Except.ok (alistDel s (key ++ ":elem:" ++ goFormatInt h)) := by
        show buntTxDelete s (buntElemKey key h)
            = Except.ok (alistDel s (buntElemKey key h))
        simp [buntTxDelete, hv]
      have hs : (buntLPop s key).2 =
          alistSet (alistDel s (key ++ ":elem:" ++ goFormatInt h))
            (key ++ ":head") (goFormatInt (h + 1)) := by
        simp [buntLPop, buntLPopBody, hGetH, hGetT, goParseInt_goFormatInt, hempty,
          hGetE, hDelE, buntTxSet]
      rw [show key ++ ":elem:" ++ goFormatInt h = buntElemKey key h from rfl] at hs
      have hlh : alistGet (buntLPop s key).2 (key ++ ":head")
          = some (goFormatInt (h + 1)) := by
        rw [hs, alistGet_set_eq]
      have hlt2 : alistGet (buntLPop s key).2 (key ++ ":tail")
          = some (goFormatInt t) := by
        rw [hs, alistGet_set_ne _ _ (headKey_ne_tailKey key).symm,
          alistGet_del_ne _ (buntElemKey_ne_tailKey key h).symm, ht]
      right
      refine ⟨h + 1, t, by omega, hlh, hlt2, ?_, ?_⟩
      · rw [buntLen_of_lookups (by omega) hlh hlt2]
      · intro i
        by_cases hi : i = h
        · rw [hi, hs, alistGet_set_ne _ _ (buntElemKey_ne_headKey key h),
            alistGet_del_eq]
          simp
        · have h1 : buntElemKey key i ≠ buntElemKey key h :=
            fun hq => hi (buntElemKey_inj hq)
          rw [hs, alistGet_set_ne _ _ (buntElemKey_ne_headKey key i),
            alistGet_del_ne _ h1, he i]
          omega

theorem buntRPop_inv (s : Store) (key : String)
    (hinv : listShapeInv buntElemKey buntLen s key) :
    listShapeInv buntElemKey buntLen (buntRPop s key).2 key := by
  cases hinv with
  | inl habs =>
    obtain ⟨hh, ht, hlen, he⟩ := habs
    have hGetH : buntTxGet s (key ++ ":head") = Except.error GoError.buntNotFound := by
      simp [buntTxGet, hh]
    have hs : (buntRPop s key).2 = s := by
      simp [buntRPop, buntRPopBody, hGetH]
    rw [hs]
    exact Or.inl ⟨hh, ht, hlen, he⟩
  | inr hpres =>
    obtain ⟨h, t, hle, hh, ht, hlen, he⟩ := hpres
    have hGetH : buntTxGet s (key ++ ":head") = Except.ok (goFormatInt h) := by
      simp [buntTxGet, hh]
    have hGetT : buntTxGet s (key ++ ":tail") = Except.ok (goFormatInt t) := by
      simp [buntTxGet, ht]
    by_cases hempty : h ≥ t
    · have hs : (buntRPop s key).2 = s := by
        simp [buntRPop, buntRPopBody, hGetH, hGetT, goParseInt_goFormatInt, hempty]
      rw [hs]
      exact Or.inr ⟨h, t, hle, hh, ht, hlen, he⟩
    · have hlt : h < t := by omega
      obtain ⟨v, hv⟩ := Option.isSome_iff_exists.mp
        ((he (t - 1)).mpr ⟨by omega, by omega⟩)
      have hGetE : buntTxGet s (key ++ ":elem:" ++ goFormatInt (t - 1)) = Except.ok v := by
        show buntTxGet s (buntElemKey key (t - 1)) = Except.ok v
        simp [buntTxGet, hv]
      have hDelE : buntTxDelete s (key ++ ":elem:" ++ goFormatInt (t - 1))
          = Except.ok (alistDel s (key ++ ":elem:" ++ goFormatInt (t - 1))) := by
        show buntTxDelete s (buntElemKey key (t - 1))
            = Except.ok (alistDel s (buntElemKey key (t - 1)))
        simp [buntTxDelete, hv]
      have hs : (buntRPop s key).2 =
          alistSet (alistDel s (key ++ ":elem:" ++ goFormatInt (t - 1)))
            (key ++ ":tail") (goFormatInt (t - 1)) := by
        simp [buntRPop, buntRPopBody, hGetH, hGetT, goParseInt_goFormatInt, hempty,
          hGetE, hDelE, buntTxSet]
      rw [show key ++ ":elem:" ++ goFormatInt (t - 1) = buntElemKey key (t - 1) from rfl] at hs
      have hlt2 : alistGet (buntRPop s key).2 (key ++ ":tail")
          = some (goFormatInt (t - 1)) := by
        rw [hs, alistGet_set_eq]
      have hlh : alistGet (buntRPop s key).2 (key ++ ":head")
          = some (goFormatInt h) := by
        rw [hs, alistGet_set_ne _ _ (headKey_ne_tailKey key),
          alistGet_del_ne _ (buntElemKey_ne_headKey key (t - 1)).symm, hh]
      right
      refine ⟨h, t - 1, by omega, hlh, hlt2, ?_, ?_⟩
      · rw [buntLen_of_lookups (by omega) hlh hlt2]
      · intro i
        by_cases hi : i = t - 1
        · rw [hi, hs, alistGet_set_ne _ _ (buntElemKey_ne_tailKey key (t - 1)),
            alistGet_del_eq]
          simp
        · have h1 : buntElemKey key i ≠ buntElemKey key (t - 1) :=
            fun hq => hi (buntElemKey_inj hq)
          rw [hs, alistGet_set_ne _ _ (buntElemKey_ne_tailKey key i),
            alistGet_del_ne _ h1, he i]
          omega

theorem buntPopAllLoop_spec (key : String) (n : Nat) :
    ∀ (i : Int) (s : Store) (acc : List String),
      ∃ res s1, buntPopAllLoop key n i s acc = Except.ok (res, s1) ∧
        ∀ k' : String,
          ((∃ j : Int, i ≤ j ∧ j < i + n ∧ k' = buntElemKey key j) →
            alistGet s1 k' = none) ∧
          ((∀ j : Int, i ≤ j → j < i + n → k' ≠ buntElemKey key j) →
            alistGet s1 k' = alistGet s k') := by
  induction n with
  | zero =>
    intro i s acc
    refine ⟨acc, s, rfl, ?_⟩
    intro k'
    constructor
    · rintro ⟨j, h1, h2, -⟩
      exfalso
      omega
    · intro _
      rfl
  | succ n ih =>
    intro i s acc
    cases hget : alistGet s (key ++ ":elem:" ++ goFormatInt i) with
    | none =>
      have hGetE : buntTxGet s (key ++ ":elem:" ++ goFormatInt i)
          = Except.error GoError.buntNotFound := by
        simp [buntTxGet, hget]
      obtain ⟨res, s1, heq, hspec⟩ := ih (i + 1) s acc
      refine ⟨res, s1, ?_, ?_⟩
      · rw [show buntPopAllLoop key (n + 1) i s acc
            = buntPopAllLoop key n (i + 1) s acc by simp [buntPopAllLoop, hGetE], heq]
      · intro k'
        constructor
        · rintro ⟨j, h1, h2, hk⟩
          by_cases hji : j = i
          · rw [(hspec k').2 ?_]
            · rw [hk, hji]
              exact hget
            · intro j' hj1 hj2 hq
              rw [hk, hji] at hq
              exact (by omega : ¬ (i = j')) (buntElemKey_inj hq)
          · exact (hspec k').1 ⟨j, by omega, by omega, hk⟩
        · intro hall
          exact (hspec k').2 (fun j h1 h2 => hall j (by omega) (by omega))
    | some v =>
      have hGetE : buntTxGet s (key ++ ":elem:" ++ goFormatInt i) = Except.ok v := by
        simp [buntTxGet, hget]
      have hDelE : buntTxDelete s (key ++ ":elem:" ++ goFormatInt i)
          = Except.ok (alistDel s (key ++ ":elem:" ++ goFormatInt i)) := by
        simp [buntTxDelete, hget]
      obtain ⟨res, s1, heq, hspec⟩ :=
        ih (i + 1) (alistDel s (key ++ ":elem:" ++ goFormatInt i)) (acc ++ [v])
      refine ⟨res, s1, ?_, ?_⟩
      · rw [show buntPopAllLoop key (n + 1) i s acc
            = buntPopAllLoop key n (i + 1)
                (alistDel s (key ++ ":elem:" ++ goFormatInt i)) (acc ++ [v]) by
          simp [buntPopAllLoop, hGetE, hDelE], heq]
      · intro k'
        constructor
        · rintro ⟨j, h1, h2, hk⟩
          by_cases hji : j = i
          · rw [(hspec k').2 ?_]
            · rw [hk, hji,
                show buntElemKey key i = key ++ ":elem:" ++ goFormatInt i from rfl,
                alistGet_del_eq]
            · intro j' hj1 hj2 hq
              rw [hk, hji] at hq
              exact (by omega : ¬ (i = j')) (buntElemKey_inj hq)
          · exact (hspec k').1 ⟨j, by omega, by omega, hk⟩
        · intro hall
          rw [(hspec k').2 (fun j h1 h2 => hall j (by omega) (by omega)),
            show key ++ ":elem:" ++ goFormatInt i = buntElemKey key i from rfl,
            alistGet_del_ne _ (hall i (le_refl i) (by omega))]

theorem buntPopAll_inv (s : Store) (key : String)
    (hinv : listShapeInv buntElemKey buntLen s key) :
    listShapeInv buntElemKey buntLen (buntPopAll s key).2 key := by
  cases hinv with
  | inl habs =>
    obtain ⟨hh, ht, hlen, he⟩ := habs
    have hGetH : buntTxGet s (key ++ ":head") = Except.error GoError.buntNotFound := by
      simp [buntTxGet, hh]
    have hs : (buntPopAll s key).2 = s := by
      simp [buntPopAll, hGetH]
    rw [hs]
    exact Or.inl ⟨hh, ht, hlen, he⟩
  | inr hpres =>
    obtain ⟨h, t, hle, hh, ht, hlen, he⟩ := hpres
    have hGetH : buntTxGet s (key ++ ":head") = Except.ok (goFormatInt h) := by
      simp [buntTxGet, hh]
    have hGetT : buntTxGet s (key ++ ":tail") = Except.ok (goFormatInt t) := by
      simp [buntTxGet, ht]
    by_cases hempty : h ≥ t
    · have hs : (buntPopAll s key).2 = s := by
        simp [buntPopAll, hGetH, hGetT, goParseInt_goFormatInt, hempty]
      rw [hs]
      exact Or.inr ⟨h, t, hle, hh, ht, hlen, he⟩
    · obtain ⟨res, s1, heq, hspec⟩ := buntPopAllLoop_spec key (t - h).toNat h s []
      have hcast : ((t - h).toNat : Int) = t - h := Int.toNat_of_nonneg (by omega)
      have hs : (buntPopAll s key).2 =
          alistSet (alistSet s1 (key ++ ":head") "0") (key ++ ":tail") "0" := by
        simp [buntPopAll, hGetH, hGetT, goParseInt_goFormatInt, hempty, heq, buntTxSet]
      have hlh : alistGet (buntPopAll s key).2 (key ++ ":head")
          = some (goFormatInt 0) := by
        rw [hs, alistGet_set_ne _ _ (headKey_ne_tailKey key), alistGet_set_eq]
        rfl
      have hlt : alistGet (buntPopAll s key).2 (key ++ ":tail")
          = some (goFormatInt 0) := by
        rw [hs, alistGet_set_eq]
        rfl
      right
      refine ⟨0, 0, by omega, hlh, hlt, ?_, ?_⟩
      · rw [buntLen_of_lookups (by omega) hlh hlt]
      · intro i
        rw [hs, alistGet_set_ne _ _ (buntElemKey_ne_tailKey key i),
          alistGet_set_ne _ _ (buntElemKey_ne_headKey key i)]
        by_cases hin : h ≤ i ∧ i < t
        · rw [(hspec (buntElemKey key i)).1 ⟨i, hin.1, by omega, rfl⟩]
          simp
        · have hside : ∀ j : Int, h ≤ j → j < h + ((t - h).toNat : Int) →
              buntElemKey key i ≠ buntElemKey key j := by
            intro j h1 h2 hq
            exact hin (by rw [buntElemKey_inj hq]; omega)
          rw [(hspec (buntElemKey key i)).2 hside]
          cases hx : alistGet s (buntElemKey key i) with
          | none => simp
          | some v =>
            exfalso
            exact hin ((he i).mp (by rw [hx]; rfl))

theorem badgerApplyOp_inv (s : Store) (key : String) (op : ListOp)
    (hinv : listShapeInv badgerElemKey badgerLen s key) :
    listShapeInv badgerElemKey badgerLen (badgerApplyOp s key op) key := by
  cases op with
  | lpush v => exact badgerLPush_inv s key v hinv
  | rpush v => exact badgerRPush_inv s key v hinv
  | lpop => exact badgerLPop_inv s key hinv
  | rpop => exact badgerRPop_inv s key hinv
  | popAll => exact badgerPopAll_inv s key hinv

theorem buntApplyOp_inv (s : Store) (key : String) (op : ListOp)
    (hinv : listShapeInv buntElemKey buntLen s key) :
    listShapeInv buntElemKey buntLen (buntApplyOp s key op) key := by
  cases op with
  | lpush v => exact buntLPush_inv s key v hinv
  | rpush v => exact buntRPush_inv s key v hinv
  | lpop => exact buntLPop_inv s key hinv
  | rpop => exact buntRPop_inv s key hinv
  | popAll => exact buntPopAll_inv s key hinv

theorem badgerRunOps_inv (key : String) (ops : List ListOp) :
    listShapeInv badgerElemKey badgerLen (badgerRunOps key ops) key := by
  suffices hstep : ∀ s, listShapeInv badgerElemKey badgerLen s key →
      listShapeInv badgerElemKey badgerLen
        (ops.foldl (fun s op => badgerApplyOp s key op) s) key by
    exact hstep [] (Or.inl ⟨rfl, rfl, rfl, fun _ => rfl⟩)
  induction ops with
  | nil => intro s hs; exact hs
  | cons op ops ih => intro s hs; exact ih _ (badgerApplyOp_inv s key op hs)

theorem buntRunOps_inv (key : String) (ops : List ListOp) :
    listShapeInv buntElemKey buntLen (buntRunOps key ops) key := by
  suffices hstep : ∀ s, listShapeInv buntElemKey buntLen s key →
      listShapeInv buntElemKey buntLen
        (ops.foldl (fun s op => buntApplyOp s key op) s) key by
    exact hstep [] (Or.inl ⟨rfl, rfl, rfl, fun _ => rfl⟩)
  induction ops with
  | nil => intro s hs; exact hs
  | cons op ops ih => intro s hs; exact ih _ (buntApplyOp_inv s key op hs)

/-- C2 counterexample: on BadgerDB after `RPush("q","v")` from an empty
store, head = 0 and tail = 1 but no element entry exists under the claimed
key shape `q:elem:0` (BadgerDB stores the element at `q:0`), so the
claim's invariant with element keys `<key>:elem:<i>` fails on BadgerDB. -/
theorem C2_counterexample :
    ¬ listShapeInv buntElemKey badgerLen (badgerRunOps "q" [ListOp.rpush "v"]) "q" := by
  intro hinv
  cases hinv with
  | inl habs =>
    obtain ⟨hh0, -, -, -⟩ := habs
    have hc : alistGet (badgerRunOps "q" [ListOp.rpush "v"]) ("q" ++ ":head")
        = some "0" := rfl
    rw [hc] at hh0
    exact Option.noConfusion hh0
  | inr hpres =>
    obtain ⟨h, t, hle, hh0, ht0, -, he⟩ := hpres
    have hc : alistGet (badgerRunOps "q" [ListOp.rpush "v"]) ("q" ++ ":head")
        = some "0" := rfl
    rw [hc] at hh0
    have hfmt : goFormatInt h = "0" := (Option.some_inj.mp hh0).symm
    have hh : h = 0 := by
      have hp := goParseInt_goFormatInt h
      rw [hfmt, (rfl : goParseInt "0" = some 0)] at hp
      exact (Option.some_inj.mp hp).symm
    have hct : alistGet (badgerRunOps "q" [ListOp.rpush "v"]) ("q" ++ ":tail")
        = some "1" := rfl
    rw [hct] at ht0
    have hfmt1 : goFormatInt t = "1" := (Option.some_inj.mp ht0).symm
    have htt : t = 1 := by
      have hp := goParseInt_goFormatInt t
      rw [hfmt1, (rfl : goParseInt "1" = some 1)] at hp
      exact (Option.some_inj.mp hp).symm
    have htrue := (he 0).mpr ⟨by omega, by omega⟩
    have hnone : alistGet (badgerRunOps "q" [ListOp.rpush "v"]) (buntElemKey "q" 0)
        = none := rfl
    rw [hnone] at htrue
    exact Bool.noConfusion htrue

/-- C2 amended: starting from an empty store, after any sequence of
LPush/RPush/LPop/RPop/PopAll on the list key k, on both local backends the
store either has no bookkeeping keys and no element entries (fresh store;
BadgerDB after a draining PopAll) with Len = 0, or satisfies head ≤ tail,
Len = tail − head, and an element entry exists exactly for head ≤ i < tail
— with element key `<k>:<i>` on BadgerDB and `<k>:elem:<i>` on BuntDB (the
claimed `<k>:elem:<i>` shape holds only on BuntDB). -/
theorem C2_amended (key : String) (ops : List ListOp) :
    listShapeInv badgerElemKey badgerLen (badgerRunOps key ops) key ∧
    listShapeInv buntElemKey buntLen (buntRunOps key ops) key :=
  ⟨badgerRunOps_inv key ops, buntRunOps_inv key ops⟩
